import Mathlib

/-!
Shallow embedding of the cricket scoring engine of `src/controllers/userController.js`
(matchController section) over the data model of `src/unnamed/part_005` (models/Match.js).

Conventions of the embedding:
* Mongoose documents become Lean structures; `null`-able string fields become `Option String`.
* JS numbers that the engine only ever uses as non-negative integers (run counts, ball
  counts, over limits) are `Nat`; where JS computes `Math.floor` of a possibly negative
  quotient we switch to `Int` with `Int.fdiv` (floor division), matching `Math.floor(a/b)`.
* `parseFloat(x.toFixed(2))` output formatting is presentational and not modelled; rate
  projections return the exact rational (`ℚ`) value (`none` models JS `null`).
* Each HTTP handler becomes a pure function from the fetched document (plus an
  `isAdmin`/authorization flag replacing `isMatchAdmin`) to an `OpOut`: the response, the
  in-memory (mutated) document, and whether `match.save()` was reached.  Persisted state
  changes only when `save` ran; `persisted` computes the post-request stored document.
* A thrown JS runtime exception (e.g. a `ReferenceError` for an undefined variable,
  caught by `asyncWrapper`) is modelled as `ApiError.js`.
-/

namespace Cricket

/-- Extras breakdown of one ball (extrasSchema). -/
structure Extras where
  wide : Nat
  noBall : Nat
  bye : Nat
  legBye : Nat
  penalty : Nat
deriving Repr, DecidableEq

/-- One delivery record (ballSchema). -/
structure Ball where
  over : Nat
  ballInOver : Nat
  striker : String
  nonStriker : String
  bowler : String
  runs : Nat
  extras : Extras
  totalRunsThisBall : Nat
  isWicket : Bool
  wicketType : Option String
  wicketPlayer : Option String
  wicketBy : Option String
  commentary : String
deriving Repr, DecidableEq

/-- Per-batsman running counters (batsmanStatSchema). -/
structure BatsmanStat where
  name : String
  runs : Nat
  balls : Nat
  fours : Nat
  sixes : Nat
  isOut : Bool
  dismissal : Option String
deriving Repr, DecidableEq

/-- Per-bowler running counters (bowlerStatSchema). -/
structure BowlerStat where
  name : String
  balls : Nat
  runs : Nat
  wickets : Nat
  wides : Nat
  noBalls : Nat
deriving Repr, DecidableEq

/-- Fall-of-wicket record. -/
structure FallOfWicket where
  batsman : String
  scoreAtFall : Nat
  over : String
deriving Repr, DecidableEq

/-- Current partnership tracker (sub-document of inningsSchema). -/
structure Partnership where
  striker : Option String
  nonStriker : Option String
  runs : Nat
deriving Repr, DecidableEq

/-- One innings (inningsSchema).  `partnerships` is the string-keyed object, embedded as
an association list in insertion order. -/
structure Innings where
  teamName : Option String
  balls : List Ball
  totalRuns : Nat
  wickets : Nat
  legalDeliveries : Nat
  oversLimit : Nat
  batsmen : List BatsmanStat
  bowlers : List BowlerStat
  fallOfWickets : List FallOfWicket
  partnerships : List (String × Nat)
  currentPartnership : Partnership
  completed : Bool
deriving Repr, DecidableEq

/-- Match lifecycle status enum. -/
inductive MatchStatus where
  | notStarted
  | inProgress
  | completed
deriving Repr, DecidableEq

/-- Result sub-document. -/
structure MatchResult where
  winner : Option String
  summary : String
deriving Repr, DecidableEq

/-- The match document (matchSchema).  The engine only ever addresses `innings[0]` and
`innings[1]` (`currentInningsIndex` is 0-based and only ever 0 or 1), so the two innings
are separate fields. -/
structure CMatch where
  innings0 : Innings
  innings1 : Innings
  currentInningsIndex : Nat
  status : MatchStatus
  result : MatchResult
deriving Repr, DecidableEq

/-- The innings addressed by `match.innings[match.currentInningsIndex]`. -/
def inningsAt (m : CMatch) (i : Nat) : Innings :=
  if i = 0 then m.innings0 else m.innings1

/-- Current innings, `match.innings[match.currentInningsIndex]`. -/
def curInnings (m : CMatch) : Innings :=
  inningsAt m m.currentInningsIndex

/-- Write back the current innings into the match document. -/
def setCurInnings (m : CMatch) (inn : Innings) : CMatch :=
  if m.currentInningsIndex = 0 then { m with innings0 := inn } else { m with innings1 := inn }

/-- Error channel of a handler: an HTTP status + message, or a thrown JS exception. -/
inductive ApiError where
  | http (status : Nat) (message : String)
  | js (message : String)
deriving Repr, DecidableEq

/-- Outcome of one handler invocation. -/
structure OpOut where
  resp : Except ApiError Unit
  mem : Option CMatch
  saved : Bool
deriving Repr

/-- Stored document after the request: it changes only if `match.save()` ran. -/
def persisted (pre : CMatch) (o : OpOut) : CMatch :=
  if o.saved then o.mem.getD pre else pre

/-! ### Helpers (lines 112–191 of the controller) -/

/-- JS `toLowerCase()` on the ASCII dismissal-kind strings, written structurally over
the character list so that it evaluates definitionally. -/
def lowerString (s : String) : String := ⟨s.data.map Char.toLower⟩

/-- `formatOversFromBalls`. -/
def formatOversFromBalls (legalDeliveries : Nat) : String :=
  toString (legalDeliveries / 6) ++ "." ++ toString (legalDeliveries % 6)

/-- Fresh batsman record created by `ensureBatsman`. -/
def freshBatsman (name : String) : BatsmanStat :=
  { name := name, runs := 0, balls := 0, fours := 0, sixes := 0, isOut := false,
    dismissal := none }

/-- Fresh bowler record created by `ensureBowler`. -/
def freshBowler (name : String) : BowlerStat :=
  { name := name, balls := 0, runs := 0, wickets := 0, wides := 0, noBalls := 0 }

/-- `ensureBatsman`: find-or-append by name (appends at the end like `push`). -/
def ensureBatsmanList (l : List BatsmanStat) (name : String) : List BatsmanStat :=
  if l.any (fun x => x.name == name) then l else l ++ [freshBatsman name]

/-- `ensureBowler`: find-or-append by name. -/
def ensureBowlerList (l : List BowlerStat) (name : String) : List BowlerStat :=
  if l.any (fun x => x.name == name) then l else l ++ [freshBowler name]

/-- Mutate the first list entry with the given name (JS mutates the object returned by
`find`, i.e. the first match). -/
def updateFirstBatsman : List BatsmanStat → String → (BatsmanStat → BatsmanStat) →
    List BatsmanStat
  | [], _, _ => []
  | b :: rest, name, f =>
      if b.name == name then f b :: rest else b :: updateFirstBatsman rest name f

/-- Mutate the first bowler entry with the given name. -/
def updateFirstBowler : List BowlerStat → String → (BowlerStat → BowlerStat) →
    List BowlerStat
  | [], _, _ => []
  | b :: rest, name, f =>
      if b.name == name then f b :: rest else b :: updateFirstBowler rest name f

/-- `ensureBatsman` followed by a mutation of the found/created record. -/
def touchBatsman (inn : Innings) (name : String) (f : BatsmanStat → BatsmanStat) :
    Innings :=
  { inn with batsmen := updateFirstBatsman (ensureBatsmanList inn.batsmen name) name f }

/-- `ensureBowler` followed by a mutation of the found/created record. -/
def touchBowler (inn : Innings) (name : String) (f : BowlerStat → BowlerStat) :
    Innings :=
  { inn with bowlers := updateFirstBowler (ensureBowlerList inn.bowlers name) name f }

/-- Ledger lookup used to state per-player claims: the entry for `name`, or the fresh
default if the name was never referenced (mirrors ensure-on-first-reference). -/
def getBatsman (inn : Innings) (name : String) : BatsmanStat :=
  (inn.batsmen.find? (fun b => b.name == name)).getD (freshBatsman name)

/-- Bowler ledger lookup, defaulting to the fresh record. -/
def getBowler (inn : Innings) (name : String) : BowlerStat :=
  (inn.bowlers.find? (fun b => b.name == name)).getD (freshBowler name)

/-- Legal balls of an innings: the log entries with a nonzero ball-in-over marker. -/
def legalBallsOf (inn : Innings) : List Ball :=
  inn.balls.filter (fun b => decide (0 < b.ballInOver))

/-- Bowler of the first legal ball recorded with over index `overIdx` (the repeated
`filter(over === k && ballInOver > 0)[0].bowler` pattern of the controller). -/
def lastOverFirstBowler (inn : Innings) (overIdx : Nat) : Option String :=
  ((inn.balls.filter (fun b => b.over == overIdx && decide (0 < b.ballInOver))).head?).map
    (fun b => b.bowler)

/-- `bowledPreviousOver` (lines 147–169). -/
def bowledPreviousOver (inn : Innings) (bowlerName : String) : Bool :=
  if inn.balls.isEmpty then false
  else
    match (legalBallsOf inn).getLast? with
    | none => false
    | some lastLegal =>
        match lastOverFirstBowler inn lastLegal.over with
        | none => false
        | some overBowler => overBowler == bowlerName

/-- `swapStrike` (lines 185–191): exchange striker and non-striker. -/
def swapStrike (inn : Innings) : Innings :=
  { inn with currentPartnership :=
      { inn.currentPartnership with
        striker := inn.currentPartnership.nonStriker,
        nonStriker := inn.currentPartnership.striker } }

/-- Partnership-map update `partnerships[key] = (partnerships[key] || 0) + runs`. -/
def addPartnership : List (String × Nat) → String → Nat → List (String × Nat)
  | [], key, r => [(key, r)]
  | (k, v) :: rest, key, r =>
      if k == key then (k, v + r) :: rest else (k, v) :: addPartnership rest key r

/-! ### Ball payload and delivery classification -/

/-- Request body of `POST /match/:id/ball`.  Optional string fields are `Option`;
`bowler = none` models a missing/empty bowler. -/
structure BallPayload where
  runs : Nat
  extras : Extras
  isWicket : Bool
  wicketType : Option String
  wicketPlayer : Option String
  wicketBy : Option String
  bowler : Option String
  commentary : String
deriving Repr, DecidableEq

/-- Sum of all extras of a ball. -/
def extrasTotal (e : Extras) : Nat := e.wide + e.noBall + e.bye + e.legBye + e.penalty

/-- JS `x || null` on an optional string: the empty string collapses to null. -/
def orNone (o : Option String) : Option String :=
  match o with
  | some s => if s = "" then none else some s
  | none => none

/-- Wide present in the extras. -/
def payloadIsWide (p : BallPayload) : Bool := decide (0 < p.extras.wide)

/-- No-ball present in the extras. -/
def payloadIsNoBall (p : BallPayload) : Bool := decide (0 < p.extras.noBall)

/-- Legal delivery: neither wide nor no-ball (line 286). -/
def payloadIsLegal (p : BallPayload) : Bool := !(payloadIsWide p || payloadIsNoBall p)

/-- Ball record constructed at lines 334–354. -/
def mkBallRecord (currentOverIndex ballInOver : Nat) (isLegalDelivery : Bool)
    (striker nonStriker bowlerName : String) (p : BallPayload) : Ball :=
  { over := currentOverIndex,
    ballInOver := if isLegalDelivery then ballInOver else 0,
    striker := striker, nonStriker := nonStriker, bowler := bowlerName,
    runs := p.runs, extras := p.extras,
    totalRunsThisBall := p.runs + extrasTotal p.extras,
    isWicket := p.isWicket,
    wicketType := orNone p.wicketType,
    wicketPlayer := orNone p.wicketPlayer,
    wicketBy := orNone p.wicketBy,
    commentary := p.commentary }

/-- Consecutive-over rejection of `addBall` (lines 290–313): the outer conservative
check (`bowledPreviousOver`, legality, and `Math.floor(l/6) !== Math.floor((l-1)/6)`,
which for `l = 0` compares `0` with `-1`) guards the inner re-check against the first
legal ball of the last completed over. -/
def consecutiveOverReject (inn : Innings) (bowlerName : String)
    (isLegalDelivery : Bool) : Bool :=
  let n := inn.legalDeliveries
  let currentOverIndex := n / 6
  if bowledPreviousOver inn bowlerName && isLegalDelivery
      && !((n : Int).fdiv 6 == ((n : Int) - 1).fdiv 6) then
    if currentOverIndex = 0 then false
    else
      match lastOverFirstBowler inn (currentOverIndex - 1) with
      | some overBowler => overBowler == bowlerName
      | none => false
  else false

/-! ### The per-innings mutation of `addBall`, split by source block -/

/-- Lines 360–387: innings total, bowler counters, and the legal/no-ball striker
updates. -/
def ballStatsPhase (inn : Innings) (striker bowlerName : String) (p : BallPayload) :
    Innings :=
  let total := p.runs + extrasTotal p.extras
  let inn1 := { inn with totalRuns := inn.totalRuns + total }
  let inn2 := touchBowler inn1 bowlerName (fun b =>
    { b with
      runs := b.runs + total,
      wides := b.wides + p.extras.wide,
      noBalls := b.noBalls + p.extras.noBall })
  if payloadIsLegal p then
    let inn3 := { inn2 with legalDeliveries := inn2.legalDeliveries + 1 }
    let inn4 := touchBowler inn3 bowlerName (fun b => { b with balls := b.balls + 1 })
    touchBatsman inn4 striker (fun s =>
      { s with
        balls := s.balls + 1,
        runs := s.runs + p.runs,
        fours := s.fours + (if p.runs = 4 then 1 else 0),
        sixes := s.sixes + (if p.runs = 6 then 1 else 0) })
  else if payloadIsNoBall p && decide (0 < p.runs) then
    touchBatsman inn2 striker (fun s =>
      { s with
        runs := s.runs + p.runs,
        fours := s.fours + (if p.runs = 4 then 1 else 0),
        sixes := s.sixes + (if p.runs = 6 then 1 else 0) })
  else inn2

/-- Dismissal kinds that do not credit the bowler (line 396). -/
def neutralDismissal (wt : String) : Bool :=
  wt == "runout" || wt == "obstructingthefield" || wt == "retired"

/-- Lines 391–448: wicket resolution (or, on a non-wicket ball, partnership runs and
odd-run strike rotation). -/
def wicketPhase (inn : Innings) (ballRecord : Ball) (bowlerName : String) : Innings :=
  if ballRecord.isWicket then
    let innW := { inn with wickets := inn.wickets + 1 }
    let wt := lowerString (ballRecord.wicketType.getD "")
    let innW2 :=
      if !neutralDismissal wt then
        touchBowler innW bowlerName (fun b => { b with wickets := b.wickets + 1 })
      else innW
    match ballRecord.wicketPlayer with
    | none => innW2
    | some wp =>
      let innW3 := touchBatsman innW2 wp (fun s =>
        { s with isOut := true, dismissal := some (ballRecord.wicketType.getD "out") })
      let innW4 := { innW3 with fallOfWickets := innW3.fallOfWickets ++
          [({ batsman := wp, scoreAtFall := innW3.totalRuns,
              over := formatOversFromBalls innW3.legalDeliveries } : FallOfWicket)] }
      let innW5 :=
        match innW4.currentPartnership.striker, innW4.currentPartnership.nonStriker with
        | some s, some ns =>
            { innW4 with partnerships :=
                (addPartnership innW4.partnerships (s ++ "___" ++ ns)
                  innW4.currentPartnership.runs) }
        | _, _ => innW4
      if innW5.currentPartnership.striker = some wp then
        { innW5 with currentPartnership :=
            { innW5.currentPartnership with striker := none, runs := 0 } }
      else if innW5.currentPartnership.nonStriker = some wp then
        { innW5 with currentPartnership :=
            { innW5.currentPartnership with nonStriker := none, runs := 0 } }
      else
        { innW5 with currentPartnership := { innW5.currentPartnership with runs := 0 } }
  else
    let innN := { inn with currentPartnership :=
        { inn.currentPartnership with
          runs := inn.currentPartnership.runs + ballRecord.totalRunsThisBall } }
    if (ballRecord.runs + ballRecord.extras.bye + ballRecord.extras.legBye) % 2 = 1 then
      swapStrike innN
    else innN

/-- Lines 323–467: the full per-innings effect of one accepted delivery — push the
ball record, update totals and ledgers, resolve the wicket or rotate strike, apply the
end-of-over swap, and complete the innings at the overs limit. -/
def applyBallToInnings (inn : Innings) (striker nonStriker bowlerName : String)
    (p : BallPayload) : Innings :=
  let n := inn.legalDeliveries
  let ballRecord :=
    mkBallRecord (n / 6) (n % 6 + 1) (payloadIsLegal p) striker nonStriker bowlerName p
  let inn1 := { inn with balls := inn.balls ++ [ballRecord] }
  let inn2 := ballStatsPhase inn1 striker bowlerName p
  let inn3 := wicketPhase inn2 ballRecord bowlerName
  let inn4 :=
    if payloadIsLegal p && decide (inn3.legalDeliveries % 6 = 0) then swapStrike inn3
    else inn3
  if inn4.oversLimit ≠ 0 ∧ inn4.oversLimit ≤ inn4.legalDeliveries / 6 then
    { inn4 with completed := true }
  else inn4

/-! ### Match-level transition and result -/

/-- Winner determination (lines 486–500 and 572–585). -/
def computeResult (m : CMatch) : MatchResult :=
  let firstTotal := m.innings0.totalRuns
  let secondTotal := m.innings1.totalRuns
  if firstTotal < secondTotal then
    { winner := m.innings1.teamName,
      summary := (m.innings1.teamName.getD "null") ++ " won by " ++
        toString (secondTotal - firstTotal) ++ " runs" }
  else if secondTotal < firstTotal then
    { winner := m.innings0.teamName,
      summary := (m.innings0.teamName.getD "null") ++ " won" }
  else
    { winner := some "tie", summary := "Match tied" }

/-- Innings-completion transition (lines 470–501 in `addBall`, 563–586 in
`endInnings`): on the first innings assign the second innings' team as the complement
and advance the pointer; on the second innings finalize the match and its result. -/
def inningsTransition (m : CMatch) : CMatch :=
  if m.currentInningsIndex = 0 then
    let second := m.innings1
    let second' :=
      if second.teamName = none then
        { second with
          teamName := some (if m.innings0.teamName = some "A" then "B" else "A") }
      else second
    { m with innings1 := second', currentInningsIndex := 1 }
  else
    { m with status := .completed, result := computeResult m }

/-! ### The five engine handlers -/

/-- `addBall` (lines 249–540).  `isAdmin` stands for `isMatchAdmin`. -/
def addBall (m? : Option CMatch) (isAdmin : Bool) (p : BallPayload) : OpOut :=
  match m? with
  | none => ⟨.error (.http 404 "Match not found"), none, false⟩
  | some m =>
    if !isAdmin then ⟨.error (.http 403 "Only umpire can update ball"), some m, false⟩
    else if m.status ≠ .inProgress then
      ⟨.error (.http 400 "Match not in progress"), some m, false⟩
    else
      let inn := curInnings m
      if inn.completed then
        ⟨.error (.http 400 "Innings already completed"), some m, false⟩
      else
        match p.bowler with
        | none => ⟨.error (.http 400 "bowler is required"), some m, false⟩
        | some bowlerName =>
          if consecutiveOverReject inn bowlerName (payloadIsLegal p) then
            ⟨.error (.http 400 "Bowler cannot bowl consecutive overs"), some m, false⟩
          else
            match inn.currentPartnership.striker, inn.currentPartnership.nonStriker with
            | some striker, some nonStriker =>
                let inn' := applyBallToInnings inn striker nonStriker bowlerName p
                let m1 := setCurInnings m inn'
                let m2 := if inn'.completed then inningsTransition m1 else m1
                ⟨.ok (), some m2, true⟩
            | _, _ =>
                ⟨.error (.http 400 "Both striker and nonStriker must be set"), some m,
                  false⟩

/-- `startInnings` (lines 197–233): no check of the ball log or of the lifecycle
status; it simply reinitializes the current partnership and ensures ledger entries. -/
def startInnings (m? : Option CMatch) (isAuthorized : Bool)
    (striker nonStriker bowler : String) : OpOut :=
  if striker = "" ∨ nonStriker = "" ∨ bowler = "" then
    ⟨.error (.http 400 "striker, nonStriker and bowler required"), none, false⟩
  else
    match m? with
    | none => ⟨.error (.http 404 "Match not found"), none, false⟩
    | some m =>
      if !isAuthorized then
        ⟨.error (.http 403 "Only umpire or match creator can start innings"), some m,
          false⟩
      else
        let inn := curInnings m
        let inn1 := { inn with currentPartnership :=
            { striker := some striker, nonStriker := some nonStriker, runs := 0 } }
        let inn2 := { inn1 with batsmen :=
            (ensureBatsmanList (ensureBatsmanList inn1.batsmen striker) nonStriker) }
        let inn3 := { inn2 with bowlers := ensureBowlerList inn2.bowlers bowler }
        ⟨.ok (), some (setCurInnings m inn3), true⟩

/-- `endInnings` (lines 547–590): unconditionally marks the current innings completed
and runs the transition — there is no check against an already-completed innings. -/
def endInnings (m? : Option CMatch) (isAdmin : Bool) : OpOut :=
  match m? with
  | none => ⟨.error (.http 404 "Match not found"), none, false⟩
  | some m =>
    if !isAdmin then ⟨.error (.http 403 "Only umpire can end innings"), some m, false⟩
    else
      let inn := curInnings m
      let m1 := setCurInnings m { inn with completed := true }
      ⟨.ok (), some (inningsTransition m1), true⟩

/-- `selectNextBatsman` (lines 646–690).  After filling a slot the handler evaluates
`io.to(roomId)`, but `io` is never defined in this handler, so the request throws a
ReferenceError; no path of this handler contains a `match.save()` call. -/
def selectNextBatsman (m? : Option CMatch) (isAdmin : Bool) (name : String) : OpOut :=
  if name = "" then ⟨.error (.http 400 "Batsman name required"), none, false⟩
  else
    match m? with
    | none => ⟨.error (.http 404 "Match not found"), none, false⟩
    | some m =>
      if !isAdmin then
        ⟨.error (.http 403 "Only umpire can select next batsman"), some m, false⟩
      else
        let inn := curInnings m
        let inn1 := { inn with batsmen := ensureBatsmanList inn.batsmen name }
        if inn1.currentPartnership.striker = none then
          let inn2 := { inn1 with currentPartnership :=
              { inn1.currentPartnership with striker := some name } }
          ⟨.error (.js "io is not defined"), some (setCurInnings m inn2), false⟩
        else if inn1.currentPartnership.nonStriker = none then
          let inn2 := { inn1 with currentPartnership :=
              { inn1.currentPartnership with nonStriker := some name } }
          ⟨.error (.js "io is not defined"), some (setCurInnings m inn2), false⟩
        else
          ⟨.error (.http 400 "No wicket waiting for a new batsman"),
            some (setCurInnings m inn1), false⟩

/-- `selectNextBowler` (lines 692–750), the standalone `validateNextBowler`
pre-check: rejects mid-over calls, rejects the bowler of the last completed over
(`Math.floor((legalBalls - 1) / 6)`, which is `-1` at the start of an innings), and
otherwise only ensures the bowler's ledger entry in memory — it never saves. -/
def selectNextBowler (m? : Option CMatch) (isAdmin : Bool) (bowler : String) : OpOut :=
  if bowler = "" then ⟨.error (.http 400 "Bowler name required"), none, false⟩
  else
    match m? with
    | none => ⟨.error (.http 404 "Match not found"), none, false⟩
    | some m =>
      if !isAdmin then
        ⟨.error (.http 403 "Only umpire can select next bowler"), some m, false⟩
      else
        let inn := curInnings m
        let legalBalls := inn.legalDeliveries
        if legalBalls ≠ 0 ∧ legalBalls % 6 ≠ 0 then
          ⟨.error (.http 400 "Over not completed yet"), some m, false⟩
        else
          let lastCompletedOver : Int := ((legalBalls : Int) - 1).fdiv 6
          let ballsInLastOver := inn.balls.filter
            (fun b => ((b.over : Int) == lastCompletedOver) && decide (0 < b.ballInOver))
          let reject :=
            match ballsInLastOver.head? with
            | some prev => prev.bowler == bowler
            | none => false
          if reject then
            ⟨.error (.http 400 "Bowler cannot bowl consecutive overs"), some m, false⟩
          else
            ⟨.ok (),
              some (setCurInnings m { inn with bowlers := ensureBowlerList inn.bowlers bowler }),
              false⟩

/-! ### Read-only required-rate projections -/

/-- Required run rate of `getScoreboard` (lines 623–634).  `parseFloat(toFixed(2))`
rounding is presentational and not modelled; `none` is JS `null`. -/
def scoreboardRequiredRate (m : CMatch) : Option ℚ :=
  if m.currentInningsIndex = 1 then
    let target : ℤ := (m.innings0.totalRuns : ℤ) + 1
    let ballsLeft : ℤ := (m.innings1.oversLimit : ℤ) * 6 - (m.innings1.legalDeliveries : ℤ)
    let runsLeft : ℤ := max 0 (target - (m.innings1.totalRuns : ℤ))
    if ballsLeft = 0 then none
    else some (((runsLeft : ℚ) * 6) / (ballsLeft : ℚ))
  else none

/-- Required run rate of `getMatchDetails` (lines 821–836). -/
def matchDetailsRequiredRate (m : CMatch) : Option ℚ :=
  if m.status ≠ .notStarted ∧ m.currentInningsIndex = 1 then
    let target : ℤ := (m.innings0.totalRuns : ℤ) + 1
    let runsLeft : ℤ := target - (m.innings1.totalRuns : ℤ)
    let ballsLeft : ℤ := (m.innings1.oversLimit : ℤ) * 6 - (m.innings1.legalDeliveries : ℤ)
    if 0 < ballsLeft ∧ 0 < runsLeft then some (((runsLeft : ℚ) * 6) / (ballsLeft : ℚ))
    else none
  else none

/-! ### Engine operation algebra (for sequences of operations) -/

/-- One engine operation submitted by an authorized caller. -/
inductive EngineOp where
  | start (striker nonStriker bowler : String)
  | ball (p : BallPayload)
  | nextBatsman (name : String)
  | nextBowler (name : String)
  | endInn
deriving Repr

/-- Persisted effect of one operation (failed operations persist nothing). -/
def applyEngineOp (m : CMatch) (op : EngineOp) : CMatch :=
  match op with
  | .start s ns b => persisted m (startInnings (some m) true s ns b)
  | .ball p => persisted m (addBall (some m) true p)
  | .nextBatsman n => persisted m (selectNextBatsman (some m) true n)
  | .nextBowler n => persisted m (selectNextBowler (some m) true n)
  | .endInn => persisted m (endInnings (some m) true)

/-- The §3 innings invariant: the runs total is the sum of per-ball totals and the
legal-delivery counter counts the balls with a nonzero ball-in-over marker. -/
def ScoreInvariant (inn : Innings) : Prop :=
  inn.totalRuns = (inn.balls.map (fun b => b.totalRunsThisBall)).sum ∧
  inn.legalDeliveries = (legalBallsOf inn).length

/-- Both innings of a match satisfy the score invariant. -/
def MatchScoreInvariant (m : CMatch) : Prop :=
  ScoreInvariant m.innings0 ∧ ScoreInvariant m.innings1

/-! ### Concrete fixtures (used by witnesses and counterexamples) -/

/-- Schema-default partnership: both slots null, zero runs. -/
def emptyPartnership : Partnership := { striker := none, nonStriker := none, runs := 0 }

/-- An innings with the schema defaults. -/
def freshInnings (team : Option String) (limit : Nat) : Innings :=
  { teamName := team, balls := [], totalRuns := 0, wickets := 0, legalDeliveries := 0,
    oversLimit := limit, batsmen := [], bowlers := [], fallOfWickets := [],
    partnerships := [], currentPartnership := emptyPartnership, completed := false }

/-- A freshly created in-progress match: team "A" bats first, 3-over innings. -/
def mkTestMatch : CMatch :=
  { innings0 := freshInnings (some "A") 3, innings1 := freshInnings none 3,
    currentInningsIndex := 0, status := .inProgress,
    result := { winner := none, summary := "" } }

/-- A plain delivery payload: `r` bat runs, no extras, no wicket. -/
def plainBall (bowlerName : String) (r : Nat) : BallPayload :=
  { runs := r, extras := ⟨0, 0, 0, 0, 0⟩, isWicket := false, wicketType := none,
    wicketPlayer := none, wicketBy := none, bowler := some bowlerName, commentary := "" }

/-- A wicket payload with a given dismissal kind and dismissed player. -/
def wicketBall (bowlerName : String) (kind : Option String)
    (player : Option String) : BallPayload :=
  { runs := 0, extras := ⟨0, 0, 0, 0, 0⟩, isWicket := true, wicketType := kind,
    wicketPlayer := player, wicketBy := none, bowler := some bowlerName,
    commentary := "" }

/-- Fold a list of engine operations from the fresh match. -/
def runOps (ops : List EngineOp) : CMatch := ops.foldl applyEngineOp mkTestMatch

/-- Six legal deliveries by "X": over 0 completed. -/
def overByX : List EngineOp :=
  List.replicate 6 (EngineOp.ball (plainBall "X" 0))

/-- State after over 0 (bowled by "X") with the innings started as S/T. -/
def afterOver0 : CMatch := runOps (EngineOp.start "S" "T" "X" :: overByX)

/-- State after over 0 by "X" plus the first ball of over 1 by "Y". -/
def midOver1 : CMatch :=
  applyEngineOp afterOver0 (EngineOp.ball (plainBall "Y" 0))

/-! ### Projection lemmas for the mutation phases -/

@[simp] theorem touchBatsman_balls (inn : Innings) (n : String) (f : BatsmanStat → BatsmanStat) :
    (touchBatsman inn n f).balls = inn.balls := rfl

@[simp] theorem touchBatsman_totalRuns (inn : Innings) (n : String) (f : BatsmanStat → BatsmanStat) :
    (touchBatsman inn n f).totalRuns = inn.totalRuns := rfl

@[simp] theorem touchBatsman_legalDeliveries (inn : Innings) (n : String) (f : BatsmanStat → BatsmanStat) :
    (touchBatsman inn n f).legalDeliveries = inn.legalDeliveries := rfl

@[simp] theorem touchBatsman_oversLimit (inn : Innings) (n : String) (f : BatsmanStat → BatsmanStat) :
    (touchBatsman inn n f).oversLimit = inn.oversLimit := rfl

@[simp] theorem touchBatsman_wickets (inn : Innings) (n : String) (f : BatsmanStat → BatsmanStat) :
    (touchBatsman inn n f).wickets = inn.wickets := rfl

@[simp] theorem touchBatsman_fallOfWickets (inn : Innings) (n : String) (f : BatsmanStat → BatsmanStat) :
    (touchBatsman inn n f).fallOfWickets = inn.fallOfWickets := rfl

@[simp] theorem touchBatsman_currentPartnership (inn : Innings) (n : String) (f : BatsmanStat → BatsmanStat) :
    (touchBatsman inn n f).currentPartnership = inn.currentPartnership := rfl

@[simp] theorem touchBatsman_completed (inn : Innings) (n : String) (f : BatsmanStat → BatsmanStat) :
    (touchBatsman inn n f).completed = inn.completed := rfl

@[simp] theorem touchBatsman_bowlers (inn : Innings) (n : String) (f : BatsmanStat → BatsmanStat) :
    (touchBatsman inn n f).bowlers = inn.bowlers := rfl

@[simp] theorem touchBowler_balls (inn : Innings) (n : String) (f : BowlerStat → BowlerStat) :
    (touchBowler inn n f).balls = inn.balls := rfl

@[simp] theorem touchBowler_totalRuns (inn : Innings) (n : String) (f : BowlerStat → BowlerStat) :
    (touchBowler inn n f).totalRuns = inn.totalRuns := rfl

@[simp] theorem touchBowler_legalDeliveries (inn : Innings) (n : String) (f : BowlerStat → BowlerStat) :
    (touchBowler inn n f).legalDeliveries = inn.legalDeliveries := rfl

@[simp] theorem touchBowler_oversLimit (inn : Innings) (n : String) (f : BowlerStat → BowlerStat) :
    (touchBowler inn n f).oversLimit = inn.oversLimit := rfl

@[simp] theorem touchBowler_wickets (inn : Innings) (n : String) (f : BowlerStat → BowlerStat) :
    (touchBowler inn n f).wickets = inn.wickets := rfl

@[simp] theorem touchBowler_fallOfWickets (inn : Innings) (n : String) (f : BowlerStat → BowlerStat) :
    (touchBowler inn n f).fallOfWickets = inn.fallOfWickets := rfl

@[simp] theorem touchBowler_currentPartnership (inn : Innings) (n : String) (f : BowlerStat → BowlerStat) :
    (touchBowler inn n f).currentPartnership = inn.currentPartnership := rfl

@[simp] theorem touchBowler_completed (inn : Innings) (n : String) (f : BowlerStat → BowlerStat) :
    (touchBowler inn n f).completed = inn.completed := rfl

@[simp] theorem touchBowler_batsmen (inn : Innings) (n : String) (f : BowlerStat → BowlerStat) :
    (touchBowler inn n f).batsmen = inn.batsmen := rfl

@[simp] theorem swapStrike_balls (inn : Innings) : (swapStrike inn).balls = inn.balls := rfl

@[simp] theorem swapStrike_totalRuns (inn : Innings) :
    (swapStrike inn).totalRuns = inn.totalRuns := rfl

@[simp] theorem swapStrike_legalDeliveries (inn : Innings) :
    (swapStrike inn).legalDeliveries = inn.legalDeliveries := rfl

@[simp] theorem swapStrike_oversLimit (inn : Innings) :
    (swapStrike inn).oversLimit = inn.oversLimit := rfl

@[simp] theorem swapStrike_wickets (inn : Innings) : (swapStrike inn).wickets = inn.wickets := rfl

@[simp] theorem swapStrike_fallOfWickets (inn : Innings) :
    (swapStrike inn).fallOfWickets = inn.fallOfWickets := rfl

@[simp] theorem swapStrike_batsmen (inn : Innings) : (swapStrike inn).batsmen = inn.batsmen := rfl

@[simp] theorem swapStrike_bowlers (inn : Innings) : (swapStrike inn).bowlers = inn.bowlers := rfl

@[simp] theorem swapStrike_completed (inn : Innings) :
    (swapStrike inn).completed = inn.completed := rfl

@[simp] theorem swapStrike_striker (inn : Innings) :
    (swapStrike inn).currentPartnership.striker = inn.currentPartnership.nonStriker := rfl

@[simp] theorem swapStrike_nonStriker (inn : Innings) :
    (swapStrike inn).currentPartnership.nonStriker = inn.currentPartnership.striker := rfl

@[simp] theorem swapStrike_partnership_runs (inn : Innings) :
    (swapStrike inn).currentPartnership.runs = inn.currentPartnership.runs := rfl

theorem ballStatsPhase_balls (inn : Innings) (s b : String) (p : BallPayload) :
    (ballStatsPhase inn s b p).balls = inn.balls := by
  unfold ballStatsPhase
  repeat' split
  all_goals rfl

theorem ballStatsPhase_totalRuns (inn : Innings) (s b : String) (p : BallPayload) :
    (ballStatsPhase inn s b p).totalRuns = inn.totalRuns + (p.runs + extrasTotal p.extras) := by
  unfold ballStatsPhase
  repeat' split
  all_goals rfl

theorem ballStatsPhase_legalDeliveries (inn : Innings) (s b : String) (p : BallPayload) :
    (ballStatsPhase inn s b p).legalDeliveries =
      inn.legalDeliveries + (if payloadIsLegal p then 1 else 0) := by
  unfold ballStatsPhase
  repeat' split
  all_goals simp_all

theorem ballStatsPhase_oversLimit (inn : Innings) (s b : String) (p : BallPayload) :
    (ballStatsPhase inn s b p).oversLimit = inn.oversLimit := by
  unfold ballStatsPhase
  repeat' split
  all_goals rfl

theorem ballStatsPhase_wickets (inn : Innings) (s b : String) (p : BallPayload) :
    (ballStatsPhase inn s b p).wickets = inn.wickets := by
  unfold ballStatsPhase
  repeat' split
  all_goals rfl

theorem ballStatsPhase_fallOfWickets (inn : Innings) (s b : String) (p : BallPayload) :
    (ballStatsPhase inn s b p).fallOfWickets = inn.fallOfWickets := by
  unfold ballStatsPhase
  repeat' split
  all_goals rfl

theorem ballStatsPhase_currentPartnership (inn : Innings) (s b : String) (p : BallPayload) :
    (ballStatsPhase inn s b p).currentPartnership = inn.currentPartnership := by
  unfold ballStatsPhase
  repeat' split
  all_goals rfl

theorem ballStatsPhase_completed (inn : Innings) (s b : String) (p : BallPayload) :
    (ballStatsPhase inn s b p).completed = inn.completed := by
  unfold ballStatsPhase
  repeat' split
  all_goals rfl

theorem wicketPhase_balls (inn : Innings) (br : Ball) (b : String) :
    (wicketPhase inn br b).balls = inn.balls := by
  simp only [wicketPhase]
  repeat' split
  all_goals simp

theorem wicketPhase_totalRuns (inn : Innings) (br : Ball) (b : String) :
    (wicketPhase inn br b).totalRuns = inn.totalRuns := by
  simp only [wicketPhase]
  repeat' split
  all_goals simp

theorem wicketPhase_legalDeliveries (inn : Innings) (br : Ball) (b : String) :
    (wicketPhase inn br b).legalDeliveries = inn.legalDeliveries := by
  simp only [wicketPhase]
  repeat' split
  all_goals simp

theorem wicketPhase_oversLimit (inn : Innings) (br : Ball) (b : String) :
    (wicketPhase inn br b).oversLimit = inn.oversLimit := by
  simp only [wicketPhase]
  repeat' split
  all_goals simp

theorem wicketPhase_completed (inn : Innings) (br : Ball) (b : String) :
    (wicketPhase inn br b).completed = inn.completed := by
  simp only [wicketPhase]
  repeat' split
  all_goals simp

/-! ### Ledger lookup lemmas -/

theorem find?_updateFirstBowler (l : List BowlerStat) (n : String)
    (f : BowlerStat → BowlerStat) (hf : ∀ b, (f b).name = b.name) :
    (updateFirstBowler l n f).find? (fun b => b.name == n) =
      (l.find? (fun b => b.name == n)).map f := by
  induction l with
  | nil => rfl
  | cons b rest ih =>
    cases hb : (b.name == n) with
    | true =>
      have hfb : ((f b).name == n) = true := by rw [hf]; exact hb
      rw [updateFirstBowler, if_pos hb, List.find?_cons, hfb, List.find?_cons, hb]
      rfl
    | false =>
      rw [updateFirstBowler, if_neg (by simp [hb]), List.find?_cons,
        (show ((b :: rest).find? (fun b => b.name == n)) = rest.find? (fun b => b.name == n)
          by rw [List.find?_cons, hb]), hb]
      exact ih

theorem find?_updateFirstBowler_ne (l : List BowlerStat) (n q : String)
    (f : BowlerStat → BowlerStat) (hf : ∀ b, (f b).name = b.name) (hne : q ≠ n) :
    (updateFirstBowler l n f).find? (fun b => b.name == q) =
      l.find? (fun b => b.name == q) := by
  induction l with
  | nil => rfl
  | cons b rest ih =>
    cases hb : (b.name == n) with
    | true =>
      have hbq : (b.name == q) = false := by
        have hbn : b.name = n := by simpa using hb
        simp [hbn]
        exact fun h => hne h.symm
      have hfq : ((f b).name == q) = false := by rw [hf]; exact hbq
      rw [updateFirstBowler, if_pos hb, List.find?_cons, hfq, List.find?_cons, hbq]
    | false =>
      rw [updateFirstBowler, if_neg (by simp [hb]), List.find?_cons, List.find?_cons]
      cases hq : (b.name == q) with
      | true => rfl
      | false => exact ih

theorem find?_ensureBowlerList (l : List BowlerStat) (n : String) :
    (ensureBowlerList l n).find? (fun b => b.name == n) =
      some ((l.find? (fun b => b.name == n)).getD (freshBowler n)) := by
  unfold ensureBowlerList
  by_cases h : l.any (fun x => x.name == n) = true
  · rw [if_pos h]
    obtain ⟨x, hx, hpx⟩ := List.any_eq_true.mp h
    have hsome : (l.find? (fun b => b.name == n)).isSome = true :=
      List.find?_isSome.mpr ⟨x, hx, hpx⟩
    obtain ⟨y, hy⟩ := Option.isSome_iff_exists.mp hsome
    rw [hy]
    rfl
  · rw [if_neg h]
    have hnone : l.find? (fun b => b.name == n) = none := by
      rw [List.find?_eq_none]
      intro a ha hpa
      exact h (List.any_eq_true.mpr ⟨a, ha, hpa⟩)
    rw [List.find?_append, hnone, Option.none_or, List.find?_cons,
      (show ((freshBowler n).name == n) = true by simp [freshBowler])]
    rfl

theorem find?_ensureBowlerList_ne (l : List BowlerStat) (n q : String) (hne : q ≠ n) :
    (ensureBowlerList l n).find? (fun b => b.name == q) =
      l.find? (fun b => b.name == q) := by
  unfold ensureBowlerList
  by_cases h : l.any (fun x => x.name == n) = true
  · rw [if_pos h]
  · rw [if_neg h, List.find?_append, List.find?_cons,
      (show ((freshBowler n).name == q) = false by
        simp [freshBowler]
        exact fun hq => hne hq.symm)]
    simp

theorem getBowler_touchBowler_self (inn : Innings) (n : String)
    (f : BowlerStat → BowlerStat) (hf : ∀ b, (f b).name = b.name) :
    getBowler (touchBowler inn n f) n = f (getBowler inn n) := by
  unfold getBowler touchBowler
  simp only
  rw [find?_updateFirstBowler _ _ _ hf, find?_ensureBowlerList]
  rfl

theorem getBowler_touchBowler_ne (inn : Innings) (n q : String)
    (f : BowlerStat → BowlerStat) (hf : ∀ b, (f b).name = b.name) (hne : q ≠ n) :
    getBowler (touchBowler inn n f) q = getBowler inn q := by
  unfold getBowler touchBowler
  simp only
  rw [find?_updateFirstBowler_ne _ _ _ _ hf hne, find?_ensureBowlerList_ne _ _ _ hne]

theorem find?_updateFirstBatsman (l : List BatsmanStat) (n : String)
    (f : BatsmanStat → BatsmanStat) (hf : ∀ b, (f b).name = b.name) :
    (updateFirstBatsman l n f).find? (fun b => b.name == n) =
      (l.find? (fun b => b.name == n)).map f := by
  induction l with
  | nil => rfl
  | cons b rest ih =>
    cases hb : (b.name == n) with
    | true =>
      have hfb : ((f b).name == n) = true := by rw [hf]; exact hb
      rw [updateFirstBatsman, if_pos hb, List.find?_cons, hfb, List.find?_cons, hb]
      rfl
    | false =>
      rw [updateFirstBatsman, if_neg (by simp [hb]), List.find?_cons,
        (show ((b :: rest).find? (fun b => b.name == n)) = rest.find? (fun b => b.name == n)
          by rw [List.find?_cons, hb]), hb]
      exact ih

theorem find?_updateFirstBatsman_ne (l : List BatsmanStat) (n q : String)
    (f : BatsmanStat → BatsmanStat) (hf : ∀ b, (f b).name = b.name) (hne : q ≠ n) :
    (updateFirstBatsman l n f).find? (fun b => b.name == q) =
      l.find? (fun b => b.name == q) := by
  induction l with
  | nil => rfl
  | cons b rest ih =>
    cases hb : (b.name == n) with
    | true =>
      have hbq : (b.name == q) = false := by
        have hbn : b.name = n := by simpa using hb
        simp [hbn]
        exact fun h => hne h.symm
      have hfq : ((f b).name == q) = false := by rw [hf]; exact hbq
      rw [updateFirstBatsman, if_pos hb, List.find?_cons, hfq, List.find?_cons, hbq]
    | false =>
      rw [updateFirstBatsman, if_neg (by simp [hb]), List.find?_cons, List.find?_cons]
      cases hq : (b.name == q) with
      | true => rfl
      | false => exact ih

theorem find?_ensureBatsmanList (l : List BatsmanStat) (n : String) :
    (ensureBatsmanList l n).find? (fun b => b.name == n) =
      some ((l.find? (fun b => b.name == n)).getD (freshBatsman n)) := by
  unfold ensureBatsmanList
  by_cases h : l.any (fun x => x.name == n) = true
  · rw [if_pos h]
    obtain ⟨x, hx, hpx⟩ := List.any_eq_true.mp h
    have hsome : (l.find? (fun b => b.name == n)).isSome = true :=
      List.find?_isSome.mpr ⟨x, hx, hpx⟩
    obtain ⟨y, hy⟩ := Option.isSome_iff_exists.mp hsome
    rw [hy]
    rfl
  · rw [if_neg h]
    have hnone : l.find? (fun b => b.name == n) = none := by
      rw [List.find?_eq_none]
      intro a ha hpa
      exact h (List.any_eq_true.mpr ⟨a, ha, hpa⟩)
    rw [List.find?_append, hnone, Option.none_or, List.find?_cons,
      (show ((freshBatsman n).name == n) = true by simp [freshBatsman])]
    rfl

theorem find?_ensureBatsmanList_ne (l : List BatsmanStat) (n q : String) (hne : q ≠ n) :
    (ensureBatsmanList l n).find? (fun b => b.name == q) =
      l.find? (fun b => b.name == q) := by
  unfold ensureBatsmanList
  by_cases h : l.any (fun x => x.name == n) = true
  · rw [if_pos h]
  · rw [if_neg h, List.find?_append, List.find?_cons,
      (show ((freshBatsman n).name == q) = false by
        simp [freshBatsman]
        exact fun hq => hne hq.symm)]
    simp

theorem getBatsman_touchBatsman_self (inn : Innings) (n : String)
    (f : BatsmanStat → BatsmanStat) (hf : ∀ b, (f b).name = b.name) :
    getBatsman (touchBatsman inn n f) n = f (getBatsman inn n) := by
  unfold getBatsman touchBatsman
  simp only
  rw [find?_updateFirstBatsman _ _ _ hf, find?_ensureBatsmanList]
  rfl

theorem getBatsman_touchBatsman_ne (inn : Innings) (n q : String)
    (f : BatsmanStat → BatsmanStat) (hf : ∀ b, (f b).name = b.name) (hne : q ≠ n) :
    getBatsman (touchBatsman inn n f) q = getBatsman inn q := by
  unfold getBatsman touchBatsman
  simp only
  rw [find?_updateFirstBatsman_ne _ _ _ _ hf hne, find?_ensureBatsmanList_ne _ _ _ hne]

/-! ### Success path of addBall and index bookkeeping -/

@[simp] theorem mkBallRecord_totalRunsThisBall (a b : Nat) (c : Bool) (s t X : String)
    (p : BallPayload) :
    (mkBallRecord a b c s t X p).totalRunsThisBall = p.runs + extrasTotal p.extras := rfl

@[simp] theorem mkBallRecord_ballInOver (a b : Nat) (c : Bool) (s t X : String)
    (p : BallPayload) :
    (mkBallRecord a b c s t X p).ballInOver = if c then b else 0 := rfl

theorem addBall_success (m : CMatch) (p : BallPayload) (X s t : String)
    (hst : m.status = .inProgress) (hc : (curInnings m).completed = false)
    (hb : p.bowler = some X)
    (hcr : consecutiveOverReject (curInnings m) X (payloadIsLegal p) = false)
    (hs : (curInnings m).currentPartnership.striker = some s)
    (hns : (curInnings m).currentPartnership.nonStriker = some t) :
    addBall (some m) true p =
      ⟨.ok (), some (
        if (applyBallToInnings (curInnings m) s t X p).completed then
          inningsTransition (setCurInnings m (applyBallToInnings (curInnings m) s t X p))
        else setCurInnings m (applyBallToInnings (curInnings m) s t X p)), true⟩ := by
  unfold addBall
  simp [hst, hb, hcr, hc, hs, hns]

theorem inningsAt_setCurInnings (m : CMatch) (inn : Innings) :
    inningsAt (setCurInnings m inn) m.currentInningsIndex = inn := by
  unfold inningsAt setCurInnings
  by_cases h : m.currentInningsIndex = 0 <;> simp [h]

theorem setCurInnings_index (m : CMatch) (inn : Innings) :
    (setCurInnings m inn).currentInningsIndex = m.currentInningsIndex := by
  unfold setCurInnings
  by_cases h : m.currentInningsIndex = 0 <;> simp [h]

theorem inningsAt_inningsTransition (m : CMatch) :
    inningsAt (inningsTransition m) m.currentInningsIndex =
      inningsAt m m.currentInningsIndex := by
  unfold inningsTransition inningsAt
  by_cases h : m.currentInningsIndex = 0 <;> simp [h]

theorem persisted_of_not_saved (pre : CMatch) (o : OpOut) (h : o.saved = false) :
    persisted pre o = pre := by
  unfold persisted
  rw [h]
  simp

/-- The innings at the pre-call index after a successful `addBall` is exactly the
`applyBallToInnings` image of the pre innings. -/
theorem postBall_innings (m : CMatch) (p : BallPayload) (X s t : String)
    (hst : m.status = .inProgress) (hc : (curInnings m).completed = false)
    (hb : p.bowler = some X)
    (hcr : consecutiveOverReject (curInnings m) X (payloadIsLegal p) = false)
    (hs : (curInnings m).currentPartnership.striker = some s)
    (hns : (curInnings m).currentPartnership.nonStriker = some t) :
    inningsAt (persisted m (addBall (some m) true p)) m.currentInningsIndex =
      applyBallToInnings (curInnings m) s t X p := by
  rw [addBall_success m p X s t hst hc hb hcr hs hns]
  unfold persisted
  simp only
  by_cases hcomp : (applyBallToInnings (curInnings m) s t X p).completed
  · simp only [hcomp, if_true, Option.getD]
    have h1 := setCurInnings_index m (applyBallToInnings (curInnings m) s t X p)
    calc inningsAt (inningsTransition (setCurInnings m (applyBallToInnings (curInnings m) s t X p)))
            m.currentInningsIndex
        = inningsAt (inningsTransition (setCurInnings m (applyBallToInnings (curInnings m) s t X p)))
            (setCurInnings m (applyBallToInnings (curInnings m) s t X p)).currentInningsIndex := by
          rw [h1]
      _ = inningsAt (setCurInnings m (applyBallToInnings (curInnings m) s t X p))
            (setCurInnings m (applyBallToInnings (curInnings m) s t X p)).currentInningsIndex :=
          inningsAt_inningsTransition _
      _ = applyBallToInnings (curInnings m) s t X p := by
          rw [h1, inningsAt_setCurInnings]
  · simp only [hcomp, if_false, Option.getD]
    exact inningsAt_setCurInnings m _

/-! ### Field equations of applyBallToInnings -/

theorem applyBallToInnings_balls (inn : Innings) (s t X : String) (p : BallPayload) :
    (applyBallToInnings inn s t X p).balls =
      inn.balls ++ [mkBallRecord (inn.legalDeliveries / 6) (inn.legalDeliveries % 6 + 1)
        (payloadIsLegal p) s t X p] := by
  simp only [applyBallToInnings]
  repeat' split
  all_goals simp [wicketPhase_balls, ballStatsPhase_balls]

theorem applyBallToInnings_totalRuns (inn : Innings) (s t X : String) (p : BallPayload) :
    (applyBallToInnings inn s t X p).totalRuns =
      inn.totalRuns + (p.runs + extrasTotal p.extras) := by
  simp only [applyBallToInnings]
  repeat' split
  all_goals simp [wicketPhase_totalRuns, ballStatsPhase_totalRuns]

theorem applyBallToInnings_legalDeliveries (inn : Innings) (s t X : String)
    (p : BallPayload) :
    (applyBallToInnings inn s t X p).legalDeliveries =
      inn.legalDeliveries + (if payloadIsLegal p then 1 else 0) := by
  simp only [applyBallToInnings]
  repeat' split
  all_goals simp_all [wicketPhase_legalDeliveries, ballStatsPhase_legalDeliveries]

/-! ### Invariant preservation -/

theorem scoreInvariant_of_eq (inn inn' : Innings)
    (hb : inn'.balls = inn.balls) (ht : inn'.totalRuns = inn.totalRuns)
    (hl : inn'.legalDeliveries = inn.legalDeliveries) (h : ScoreInvariant inn) :
    ScoreInvariant inn' := by
  unfold ScoreInvariant legalBallsOf at *
  rw [hb, ht, hl]
  exact h

theorem matchInvariant_setCur (m : CMatch) (inn' : Innings)
    (h : MatchScoreInvariant m) (hinv : ScoreInvariant inn') :
    MatchScoreInvariant (setCurInnings m inn') := by
  unfold MatchScoreInvariant setCurInnings at *
  by_cases hi : m.currentInningsIndex = 0
  · simp only [hi, if_true]
    exact ⟨hinv, h.2⟩
  · simp only [hi, if_false]
    exact ⟨h.1, hinv⟩

theorem matchInvariant_inningsTransition (m : CMatch) (h : MatchScoreInvariant m) :
    MatchScoreInvariant (inningsTransition m) := by
  unfold inningsTransition
  by_cases hi : m.currentInningsIndex = 0
  · simp only [hi, if_true]
    refine ⟨h.1, ?_⟩
    split
    · exact scoreInvariant_of_eq m.innings1 _ rfl rfl rfl h.2
    · exact h.2
  · simp only [hi, if_false]
    exact h

theorem scoreInvariant_curInnings (m : CMatch) (h : MatchScoreInvariant m) :
    ScoreInvariant (curInnings m) := by
  unfold curInnings inningsAt
  by_cases hi : m.currentInningsIndex = 0
  · simp only [hi, if_true]
    exact h.1
  · simp only [hi, if_false]
    exact h.2

theorem applyBallToInnings_invariant (inn : Innings) (s t X : String) (p : BallPayload)
    (h : ScoreInvariant inn) : ScoreInvariant (applyBallToInnings inn s t X p) := by
  unfold ScoreInvariant legalBallsOf at *
  rw [applyBallToInnings_balls, applyBallToInnings_totalRuns,
    applyBallToInnings_legalDeliveries]
  constructor
  · rw [List.map_append, List.sum_append, ← h.1]
    simp [Nat.add_comm]
  · rw [List.filter_append, List.length_append, ← h.2]
    by_cases hleg : payloadIsLegal p
    · simp [hleg]
    · simp [hleg]

theorem applyEngineOp_invariant (m : CMatch) (op : EngineOp)
    (h : MatchScoreInvariant m) : MatchScoreInvariant (applyEngineOp m op) := by
  cases op with
  | start s ns b =>
    show MatchScoreInvariant (persisted m (startInnings (some m) true s ns b))
    simp only [startInnings]
    repeat' split
    all_goals try simp [persisted]
    all_goals
      (first
        | exact h
        | (refine matchInvariant_setCur m _ h ?_
           exact scoreInvariant_of_eq (curInnings m) _ rfl rfl rfl
             (scoreInvariant_curInnings m h)))
  | ball p =>
    show MatchScoreInvariant (persisted m (addBall (some m) true p))
    simp only [addBall]
    repeat' split
    all_goals try simp [persisted]
    all_goals try exact h
    all_goals
      (first
        | exact matchInvariant_inningsTransition _
            (matchInvariant_setCur m _ h
              (applyBallToInnings_invariant _ _ _ _ _ (scoreInvariant_curInnings m h)))
        | exact matchInvariant_setCur m _ h
            (applyBallToInnings_invariant _ _ _ _ _ (scoreInvariant_curInnings m h)))
  | nextBatsman n =>
    show MatchScoreInvariant (persisted m (selectNextBatsman (some m) true n))
    simp only [selectNextBatsman]
    repeat' split
    all_goals try simp [persisted]
    all_goals exact h
  | nextBowler n =>
    show MatchScoreInvariant (persisted m (selectNextBowler (some m) true n))
    simp only [selectNextBowler]
    repeat' split
    all_goals try simp [persisted]
    all_goals exact h
  | endInn =>
    show MatchScoreInvariant (persisted m (endInnings (some m) true))
    simp only [endInnings]
    repeat' split
    all_goals try simp [persisted]
    all_goals
      (first
        | exact h
        | (refine matchInvariant_inningsTransition _ ?_
           refine matchInvariant_setCur m _ h ?_
           exact scoreInvariant_of_eq (curInnings m) _ rfl rfl rfl
             (scoreInvariant_curInnings m h)))

/-! ### Saved-implies-ok lemmas (no handler saves after deciding to fail) -/

theorem addBall_saved_ok (m? : Option CMatch) (a : Bool) (p : BallPayload) :
    (addBall m? a p).resp = .ok () ∨ (addBall m? a p).saved = false := by
  unfold addBall
  repeat' (first | split | simp only [])
  all_goals simp

theorem startInnings_saved_ok (m? : Option CMatch) (a : Bool) (s ns b : String) :
    (startInnings m? a s ns b).resp = .ok () ∨ (startInnings m? a s ns b).saved = false := by
  unfold startInnings
  repeat' (first | split | simp only [])
  all_goals simp

theorem selectNextBatsman_saved_ok (m? : Option CMatch) (a : Bool) (n : String) :
    (selectNextBatsman m? a n).resp = .ok () ∨
      (selectNextBatsman m? a n).saved = false := by
  unfold selectNextBatsman
  repeat' (first | split | simp only [])
  all_goals simp

theorem selectNextBowler_saved_ok (m? : Option CMatch) (a : Bool) (n : String) :
    (selectNextBowler m? a n).resp = .ok () ∨
      (selectNextBowler m? a n).saved = false := by
  unfold selectNextBowler
  repeat' (first | split | simp only [])
  all_goals simp

theorem endInnings_saved_ok (m? : Option CMatch) (a : Bool) :
    (endInnings m? a).resp = .ok () ∨ (endInnings m? a).saved = false := by
  unfold endInnings
  repeat' (first | split | simp only [])
  all_goals simp

theorem error_keeps_state (pre : CMatch) (o : OpOut)
    (hok : o.resp = .ok () ∨ o.saved = false) (e : ApiError)
    (he : o.resp = .error e) : persisted pre o = pre := by
  cases hok with
  | inl h =>
    rw [h] at he
    exact absurd he (by simp)
  | inr h => exact persisted_of_not_saved pre o h

/-! ### More concrete fixtures -/

/-- Match after `endInnings` was applied twice: both innings completed, match
completed, current (second) innings already completed. -/
def doneMatch : CMatch := runOps [EngineOp.endInn, EngineOp.endInn]

/-- Match after the striker "S" was dismissed: the striker slot of the current
partnership is empty. -/
def afterWicketS : CMatch :=
  runOps [EngineOp.start "S" "T" "X",
    EngineOp.ball (wicketBall "X" (some "bowled") (some "S"))]

/-- Match with one recorded delivery. -/
def oneBallMatch : CMatch :=
  runOps [EngineOp.start "S" "T" "X", EngineOp.ball (plainBall "X" 1)]

/-! ### Claim theorems -/

/-- C5: every sequence of engine operations preserves the innings score invariants:
`totalRuns` equals the sum of `totalRunsThisBall` over the ball log, and
`legalDeliveries` equals the number of balls whose ball-in-over marker is nonzero.
Failed operations persist nothing, so the invariant also survives arbitrary failed
attempts in the sequence. -/
theorem C5_engine_score_invariant (ops : List EngineOp) (m : CMatch)
    (h : MatchScoreInvariant m) : MatchScoreInvariant (ops.foldl applyEngineOp m) := by
  induction ops generalizing m with
  | nil => exact h
  | cons op rest ih => exact ih (applyEngineOp m op) (applyEngineOp_invariant m op h)

/-- Witness for C5: the freshly created match satisfies the invariant, and the
invariant still holds after a concrete mixed sequence (start, boundary, wide,
wicket, manual end). -/
theorem C5_witness :
    MatchScoreInvariant mkTestMatch ∧
    MatchScoreInvariant
      (([EngineOp.start "S" "T" "X", EngineOp.ball (plainBall "X" 4),
         EngineOp.ball { plainBall "X" 0 with extras := ⟨1, 0, 0, 0, 0⟩ },
         EngineOp.ball (wicketBall "X" (some "bowled") (some "S")),
         EngineOp.endInn]).foldl applyEngineOp mkTestMatch) :=
  ⟨⟨⟨rfl, rfl⟩, ⟨rfl, rfl⟩⟩, C5_engine_score_invariant _ mkTestMatch ⟨⟨rfl, rfl⟩, ⟨rfl, rfl⟩⟩⟩

/-- C9: atomicity — whenever a handler answers with an error of any kind, the
persisted match state equals the pre-state (no partial mutation is ever saved). -/
theorem C9_error_atomicity :
    (∀ (m : CMatch) (a : Bool) (p : BallPayload) (e : ApiError),
      (addBall (some m) a p).resp = .error e →
        persisted m (addBall (some m) a p) = m) ∧
    (∀ (m : CMatch) (a : Bool) (s ns b : String) (e : ApiError),
      (startInnings (some m) a s ns b).resp = .error e →
        persisted m (startInnings (some m) a s ns b) = m) ∧
    (∀ (m : CMatch) (a : Bool) (n : String) (e : ApiError),
      (selectNextBatsman (some m) a n).resp = .error e →
        persisted m (selectNextBatsman (some m) a n) = m) ∧
    (∀ (m : CMatch) (a : Bool) (n : String) (e : ApiError),
      (selectNextBowler (some m) a n).resp = .error e →
        persisted m (selectNextBowler (some m) a n) = m) ∧
    (∀ (m : CMatch) (a : Bool) (e : ApiError),
      (endInnings (some m) a).resp = .error e →
        persisted m (endInnings (some m) a) = m) :=
  ⟨fun m a p e he => error_keeps_state m _ (addBall_saved_ok (some m) a p) e he,
   fun m a s ns b e he => error_keeps_state m _ (startInnings_saved_ok (some m) a s ns b) e he,
   fun m a n e he => error_keeps_state m _ (selectNextBatsman_saved_ok (some m) a n) e he,
   fun m a n e he => error_keeps_state m _ (selectNextBowler_saved_ok (some m) a n) e he,
   fun m a e he => error_keeps_state m _ (endInnings_saved_ok (some m) a) e he⟩

/-- Witness for C9: concrete failing calls (ball on a completed match, batsman
selection that crashes on the undefined `io`, unauthorized end) leave the stored
state untouched. -/
theorem C9_witness :
    persisted doneMatch (addBall (some doneMatch) true (plainBall "Y" 0)) = doneMatch ∧
    persisted afterWicketS (selectNextBatsman (some afterWicketS) true "U") = afterWicketS ∧
    persisted mkTestMatch (endInnings (some mkTestMatch) false) = mkTestMatch :=
  ⟨C9_error_atomicity.1 doneMatch true (plainBall "Y" 0)
      (.http 400 "Match not in progress") rfl,
   C9_error_atomicity.2.2.1 afterWicketS true "U" (.js "io is not defined") rfl,
   C9_error_atomicity.2.2.2.2 mkTestMatch false (.http 403 "Only umpire can end innings") rfl⟩

/-- C2 (code bug): with the striker slot empty, `selectNextBatsman` does fill the
slot in memory, but the handler then evaluates `io.to(roomId)` where `io` is never
defined, so the request fails with a ReferenceError, and since no path of the
handler calls `match.save()`, nothing is persisted — contradicting the claim that
the call returns successfully with the updated partnership persisted. -/
theorem C2_selectNextBatsman_crashes :
    (curInnings afterWicketS).currentPartnership.striker = none ∧
    (selectNextBatsman (some afterWicketS) true "U").resp =
      .error (.js "io is not defined") ∧
    (selectNextBatsman (some afterWicketS) true "U").saved = false ∧
    persisted afterWicketS (selectNextBatsman (some afterWicketS) true "U") =
      afterWicketS ∧
    (selectNextBatsman (some afterOver0) true "U").resp =
      .error (.http 400 "No wicket waiting for a new batsman") :=
  ⟨rfl, rfl, rfl, rfl, rfl⟩

/-- C3 (code bug): `endInnings` has no guard against an already-completed current
innings: invoked on a match whose second innings is already completed (and whose
match status is already `completed`), it is not rejected — it answers OK, reruns
the transition and recomputes the result, and saves again. -/
theorem C3_endInnings_not_idempotent :
    (curInnings doneMatch).completed = true ∧
    doneMatch.status = .completed ∧
    (endInnings (some doneMatch) true).resp = .ok () ∧
    (endInnings (some doneMatch) true).saved = true :=
  ⟨rfl, rfl, rfl, rfl⟩

/-- C4 counterexample: the current innings of `oneBallMatch` has a recorded
delivery, yet `startInnings` succeeds (and saves) instead of failing with
InvalidState. -/
theorem C4_counterexample :
    (curInnings oneBallMatch).balls ≠ [] ∧
    (startInnings (some oneBallMatch) true "P" "Q" "Z").resp = .ok () ∧
    (startInnings (some oneBallMatch) true "P" "Q" "Z").saved = true :=
  ⟨by decide, rfl, rfl⟩

theorem any_ensureBatsmanList (l : List BatsmanStat) (n : String) :
    (ensureBatsmanList l n).any (fun x => x.name == n) = true := by
  unfold ensureBatsmanList
  split
  · assumption
  · simp [List.any_append, freshBatsman]

theorem any_ensureBatsmanList_mono (l : List BatsmanStat) (n : String)
    (p : BatsmanStat → Bool) (h : l.any p = true) :
    (ensureBatsmanList l n).any p = true := by
  unfold ensureBatsmanList
  split
  · exact h
  · simp [List.any_append, h]

theorem any_ensureBowlerList (l : List BowlerStat) (n : String) :
    (ensureBowlerList l n).any (fun x => x.name == n) = true := by
  unfold ensureBowlerList
  split
  · assumption
  · simp [List.any_append, freshBowler]

theorem persisted_save (pre m2 : CMatch) (r : Except ApiError Unit) :
    persisted pre ⟨r, some m2, true⟩ = m2 := rfl

theorem startInnings_success_eq (m : CMatch) (s ns b : String)
    (hs : s ≠ "") (hns : ns ≠ "") (hb : b ≠ "") :
    startInnings (some m) true s ns b =
      ⟨.ok (), some (setCurInnings m
        { curInnings m with
          currentPartnership := { striker := some s, nonStriker := some ns, runs := 0 },
          batsmen := ensureBatsmanList (ensureBatsmanList (curInnings m).batsmen s) ns,
          bowlers := ensureBowlerList (curInnings m).bowlers b }), true⟩ := by
  unfold startInnings
  rw [if_neg (by push_neg; exact ⟨hs, hns, hb⟩)]
  rfl

/-- C4 (amended): `startInnings` fails with NotFound exactly on an unknown match;
on any found match (authorized, nonempty names) it succeeds — regardless of the
recorded ball log — reinitializing the current partnership to (striker, nonStriker,
0 runs) and ensuring ledger entries for both batsmen and the opening bowler. -/
theorem C4_startInnings_amended (m : CMatch) (s ns b : String)
    (hs : s ≠ "") (hns : ns ≠ "") (hb : b ≠ "") :
    (startInnings none true s ns b).resp = .error (.http 404 "Match not found") ∧
    (startInnings (some m) true s ns b).resp = .ok () ∧
    (inningsAt (persisted m (startInnings (some m) true s ns b))
        m.currentInningsIndex).currentPartnership =
      { striker := some s, nonStriker := some ns, runs := 0 } ∧
    ((inningsAt (persisted m (startInnings (some m) true s ns b))
        m.currentInningsIndex).batsmen.any (fun x => x.name == s)) = true ∧
    ((inningsAt (persisted m (startInnings (some m) true s ns b))
        m.currentInningsIndex).batsmen.any (fun x => x.name == ns)) = true ∧
    ((inningsAt (persisted m (startInnings (some m) true s ns b))
        m.currentInningsIndex).bowlers.any (fun x => x.name == b)) = true := by
  have heq := startInnings_success_eq m s ns b hs hns hb
  refine ⟨?_, ?_, ?_, ?_, ?_, ?_⟩
  · unfold startInnings
    rw [if_neg (by push_neg; exact ⟨hs, hns, hb⟩)]
  · rw [heq]
  · rw [heq, persisted_save, inningsAt_setCurInnings]
  · rw [heq, persisted_save, inningsAt_setCurInnings]
    exact any_ensureBatsmanList_mono _ ns _ (any_ensureBatsmanList _ s)
  · rw [heq, persisted_save, inningsAt_setCurInnings]
    exact any_ensureBatsmanList _ ns
  · rw [heq, persisted_save, inningsAt_setCurInnings]
    exact any_ensureBowlerList _ b

/-- Witness for the amended C4 at a match that already has a recorded delivery. -/
theorem C4_witness :
    (startInnings (some oneBallMatch) true "P" "Q" "Z").resp = .ok () ∧
    (inningsAt (persisted oneBallMatch
        (startInnings (some oneBallMatch) true "P" "Q" "Z"))
        oneBallMatch.currentInningsIndex).currentPartnership =
      { striker := some "P", nonStriker := some "Q", runs := 0 } :=
  ⟨(C4_startInnings_amended oneBallMatch "P" "Q" "Z" (by decide) (by decide)
      (by decide)).2.1,
   (C4_startInnings_amended oneBallMatch "P" "Q" "Z" (by decide) (by decide)
      (by decide)).2.2.1⟩

/-- A second innings in progress whose total already passed the target. -/
def chasedDown : CMatch :=
  { innings0 := { freshInnings (some "A") 2 with totalRuns := 10, completed := true },
    innings1 := { freshInnings (some "B") 2 with totalRuns := 20, legalDeliveries := 6 },
    currentInningsIndex := 1, status := .inProgress,
    result := { winner := none, summary := "" } }

/-- A second innings in progress still chasing: target 11, scored 3, 6 balls left. -/
def chasing : CMatch :=
  { innings0 := { freshInnings (some "A") 2 with totalRuns := 10, completed := true },
    innings1 := { freshInnings (some "B") 2 with totalRuns := 3, legalDeliveries := 6 },
    currentInningsIndex := 1, status := .inProgress,
    result := { winner := none, summary := "" } }

/-- C8 counterexample: with the second innings active, balls remaining and required
runs ≤ 0, the scoreboard projection reports a required rate of `0` — not `null` as
the claim states (the match-details projection does report `null` there). -/
theorem C8_counterexample :
    chasedDown.currentInningsIndex = 1 ∧
    chasedDown.status = .inProgress ∧
    (chasedDown.innings1.oversLimit * 6 : ℤ) - chasedDown.innings1.legalDeliveries = 6 ∧
    (chasedDown.innings0.totalRuns : ℤ) + 1 - chasedDown.innings1.totalRuns ≤ 0 ∧
    scoreboardRequiredRate chasedDown = some 0 ∧
    matchDetailsRequiredRate chasedDown = none := by
  refine ⟨rfl, rfl, by decide, by decide, ?_, by decide⟩
  unfold scoreboardRequiredRate
  norm_num [chasedDown, freshInnings]

/-- C8 (amended): the required-rate projections are driven by
`ballsLeft = oversLimit×6 − legalDeliveries` and `runsLeft = firstInningsRuns + 1 −
currentRuns`.  Both report the rate `runsLeft×6 ÷ ballsLeft` when the second innings
is selected and both quantities are positive; both report null when no index-1
innings is selected or when `ballsLeft = 0`; but when `runsLeft ≤ 0` with balls
remaining, only the match-details projection reports null — the scoreboard clamps
`runsLeft` at 0 and reports a rate of 0.  The match-details projection additionally
requires `status ≠ not_started`. -/
theorem C8_requiredRate_amended (m : CMatch) :
    (m.currentInningsIndex ≠ 1 →
      scoreboardRequiredRate m = none ∧ matchDetailsRequiredRate m = none) ∧
    (m.currentInningsIndex = 1 →
      ((m.innings1.oversLimit : ℤ) * 6 - (m.innings1.legalDeliveries : ℤ) = 0 →
        scoreboardRequiredRate m = none ∧ matchDetailsRequiredRate m = none) ∧
      (0 < (m.innings1.oversLimit : ℤ) * 6 - (m.innings1.legalDeliveries : ℤ) →
        0 < (m.innings0.totalRuns : ℤ) + 1 - (m.innings1.totalRuns : ℤ) →
        scoreboardRequiredRate m =
          some ((((m.innings0.totalRuns : ℤ) + 1 - (m.innings1.totalRuns : ℤ) : ℤ) : ℚ) * 6 /
            (((m.innings1.oversLimit : ℤ) * 6 - (m.innings1.legalDeliveries : ℤ) : ℤ) : ℚ)) ∧
        (m.status ≠ .notStarted →
          matchDetailsRequiredRate m = scoreboardRequiredRate m)) ∧
      ((m.innings0.totalRuns : ℤ) + 1 - (m.innings1.totalRuns : ℤ) ≤ 0 →
        (m.innings1.oversLimit : ℤ) * 6 - (m.innings1.legalDeliveries : ℤ) ≠ 0 →
        scoreboardRequiredRate m = some 0 ∧ matchDetailsRequiredRate m = none) ∧
      (m.status = .notStarted → matchDetailsRequiredRate m = none)) := by
  constructor
  · intro hidx
    unfold scoreboardRequiredRate matchDetailsRequiredRate
    rw [if_neg hidx, if_neg (by intro hand; exact hidx hand.2)]
    exact ⟨rfl, rfl⟩
  · intro hidx
    refine ⟨?_, ?_, ?_, ?_⟩
    · intro hbl
      unfold scoreboardRequiredRate matchDetailsRequiredRate
      rw [if_pos hidx]
      constructor
      · rw [if_pos hbl]
      · split
        · rw [if_neg (by intro hand; omega)]
        · rfl
    · intro hbl hrl
      constructor
      · unfold scoreboardRequiredRate
        rw [if_pos hidx, if_neg (by omega),
          max_eq_right (le_of_lt hrl)]
      · intro hstat
        unfold scoreboardRequiredRate matchDetailsRequiredRate
        rw [if_pos hidx, if_pos ⟨hstat, hidx⟩, if_pos ⟨hbl, hrl⟩, if_neg (by omega),
          max_eq_right (le_of_lt hrl)]
    · intro hrl hbl
      constructor
      · unfold scoreboardRequiredRate
        rw [if_pos hidx, if_neg hbl, max_eq_left hrl]
        norm_num
      · unfold matchDetailsRequiredRate
        split
        · rw [if_neg (by intro hand; omega)]
        · rfl
    · intro hstat
      unfold matchDetailsRequiredRate
      rw [if_neg (by intro hand; exact hand.1 hstat)]

/-- Witness for the amended C8: a live chase (rate 8) and the chased-down state
(scoreboard 0, details null). -/
theorem C8_witness :
    scoreboardRequiredRate chasing = some 8 ∧
    matchDetailsRequiredRate chasing = some 8 ∧
    scoreboardRequiredRate chasedDown = some 0 ∧
    matchDetailsRequiredRate chasedDown = none := by
  have hpos := ((C8_requiredRate_amended chasing).2 rfl).2.1 (by decide) (by decide)
  have hneg := ((C8_requiredRate_amended chasedDown).2 rfl).2.2.1 (by decide) (by decide)
  refine ⟨?_, ?_, hneg.1, hneg.2⟩
  · rw [hpos.1]
    norm_num [chasing, freshInnings]
  · rw [hpos.2 (by decide), hpos.1]
    norm_num [chasing, freshInnings]

/-! ### Ledger lookup across the addBall phases -/

@[simp] theorem mkBallRecord_runs (a b : Nat) (c : Bool) (s t X : String)
    (p : BallPayload) : (mkBallRecord a b c s t X p).runs = p.runs := rfl

@[simp] theorem mkBallRecord_extras (a b : Nat) (c : Bool) (s t X : String)
    (p : BallPayload) : (mkBallRecord a b c s t X p).extras = p.extras := rfl

@[simp] theorem mkBallRecord_isWicket (a b : Nat) (c : Bool) (s t X : String)
    (p : BallPayload) : (mkBallRecord a b c s t X p).isWicket = p.isWicket := rfl

@[simp] theorem mkBallRecord_wicketType (a b : Nat) (c : Bool) (s t X : String)
    (p : BallPayload) :
    (mkBallRecord a b c s t X p).wicketType = orNone p.wicketType := rfl

@[simp] theorem mkBallRecord_wicketPlayer (a b : Nat) (c : Bool) (s t X : String)
    (p : BallPayload) :
    (mkBallRecord a b c s t X p).wicketPlayer = orNone p.wicketPlayer := rfl

@[simp] theorem getBowler_touchBatsman (inn : Innings) (n : String)
    (f : BatsmanStat → BatsmanStat) (q : String) :
    getBowler (touchBatsman inn n f) q = getBowler inn q := rfl

@[simp] theorem getBatsman_touchBowler (inn : Innings) (n : String)
    (f : BowlerStat → BowlerStat) (q : String) :
    getBatsman (touchBowler inn n f) q = getBatsman inn q := rfl

@[simp] theorem getBowler_swapStrike (inn : Innings) (q : String) :
    getBowler (swapStrike inn) q = getBowler inn q := rfl

@[simp] theorem getBatsman_swapStrike (inn : Innings) (q : String) :
    getBatsman (swapStrike inn) q = getBatsman inn q := rfl

/-- List-level bowler lookup (the value `ensureBowler` hands the mutation). -/
def bowlerOf (l : List BowlerStat) (q : String) : BowlerStat :=
  (l.find? (fun b => b.name == q)).getD (freshBowler q)

/-- List-level batsman lookup. -/
def batsmanOf (l : List BatsmanStat) (q : String) : BatsmanStat :=
  (l.find? (fun b => b.name == q)).getD (freshBatsman q)

@[simp] theorem getBowler_eq (i : Innings) (q : String) :
    getBowler i q = bowlerOf i.bowlers q := rfl

@[simp] theorem getBatsman_eq (i : Innings) (q : String) :
    getBatsman i q = batsmanOf i.batsmen q := rfl

@[simp] theorem bowlers_touchBowler (i : Innings) (n : String) (f : BowlerStat → BowlerStat) :
    (touchBowler i n f).bowlers = updateFirstBowler (ensureBowlerList i.bowlers n) n f := rfl

@[simp] theorem bowlers_touchBatsman (i : Innings) (n : String) (f : BatsmanStat → BatsmanStat) :
    (touchBatsman i n f).bowlers = i.bowlers := rfl

@[simp] theorem batsmen_touchBatsman (i : Innings) (n : String) (f : BatsmanStat → BatsmanStat) :
    (touchBatsman i n f).batsmen = updateFirstBatsman (ensureBatsmanList i.batsmen n) n f := rfl

@[simp] theorem batsmen_touchBowler (i : Innings) (n : String) (f : BowlerStat → BowlerStat) :
    (touchBowler i n f).batsmen = i.batsmen := rfl

@[simp] theorem bowlers_swapStrike (i : Innings) : (swapStrike i).bowlers = i.bowlers := rfl

@[simp] theorem batsmen_swapStrike (i : Innings) : (swapStrike i).batsmen = i.batsmen := rfl

theorem bowlerOf_touch_self (l : List BowlerStat) (n : String)
    (f : BowlerStat → BowlerStat) (hf : ∀ b, (f b).name = b.name) :
    bowlerOf (updateFirstBowler (ensureBowlerList l n) n f) n = f (bowlerOf l n) := by
  rw [bowlerOf, find?_updateFirstBowler _ _ _ hf, find?_ensureBowlerList]
  rfl

theorem batsmanOf_touch_self (l : List BatsmanStat) (n : String)
    (f : BatsmanStat → BatsmanStat) (hf : ∀ b, (f b).name = b.name) :
    batsmanOf (updateFirstBatsman (ensureBatsmanList l n) n f) n = f (batsmanOf l n) := by
  rw [batsmanOf, find?_updateFirstBatsman _ _ _ hf, find?_ensureBatsmanList]
  rfl

theorem batsmanOf_touch_ne (l : List BatsmanStat) (n q : String)
    (f : BatsmanStat → BatsmanStat) (hf : ∀ b, (f b).name = b.name) (hne : q ≠ n) :
    batsmanOf (updateFirstBatsman (ensureBatsmanList l n) n f) q = batsmanOf l q := by
  rw [batsmanOf, find?_updateFirstBatsman_ne _ _ _ _ hf hne,
    find?_ensureBatsmanList_ne _ _ _ hne]
  rfl

theorem batsmanOf_touch_fields (l : List BatsmanStat) (n q : String)
    (f : BatsmanStat → BatsmanStat)
    (hf : ∀ b, (f b).name = b.name) (hr : ∀ b, (f b).runs = b.runs)
    (hbl : ∀ b, (f b).balls = b.balls) (h4 : ∀ b, (f b).fours = b.fours)
    (h6 : ∀ b, (f b).sixes = b.sixes) :
    (batsmanOf (updateFirstBatsman (ensureBatsmanList l n) n f) q).runs =
        (batsmanOf l q).runs ∧
    (batsmanOf (updateFirstBatsman (ensureBatsmanList l n) n f) q).balls =
        (batsmanOf l q).balls ∧
    (batsmanOf (updateFirstBatsman (ensureBatsmanList l n) n f) q).fours =
        (batsmanOf l q).fours ∧
    (batsmanOf (updateFirstBatsman (ensureBatsmanList l n) n f) q).sixes =
        (batsmanOf l q).sixes := by
  by_cases hq : q = n
  · subst hq
    rw [batsmanOf_touch_self _ _ _ hf]
    exact ⟨hr _, hbl _, h4 _, h6 _⟩
  · rw [batsmanOf_touch_ne _ _ _ _ hf hq]
    exact ⟨rfl, rfl, rfl, rfl⟩

theorem getBowler_wicketPhase_self (i : Innings) (br : Ball) (X : String) :
    getBowler (wicketPhase i br X) X =
      (if br.isWicket &&
          !neutralDismissal (lowerString (br.wicketType.getD "")) then
        { getBowler i X with wickets := (getBowler i X).wickets + 1 }
      else getBowler i X) := by
  unfold wicketPhase
  repeat' (first | split | simp only [])
  all_goals try simp_all
  all_goals
    (first
      | rfl
      | (rw [bowlerOf_touch_self] <;> first | rfl | exact fun b => rfl))

theorem getBatsman_wicketPhase_fields (i : Innings) (br : Ball) (X q : String) :
    (getBatsman (wicketPhase i br X) q).runs = (getBatsman i q).runs ∧
    (getBatsman (wicketPhase i br X) q).balls = (getBatsman i q).balls ∧
    (getBatsman (wicketPhase i br X) q).fours = (getBatsman i q).fours ∧
    (getBatsman (wicketPhase i br X) q).sixes = (getBatsman i q).sixes := by
  unfold wicketPhase
  repeat' (first | split | simp only [])
  all_goals try simp_all
  all_goals
    (first
      | exact ⟨rfl, rfl, rfl, rfl⟩
      | exact batsmanOf_touch_fields _ _ _ _ (fun b => rfl) (fun b => rfl)
          (fun b => rfl) (fun b => rfl) (fun b => rfl))

theorem getBowler_ballStatsPhase (i : Innings) (s X : String) (p : BallPayload) :
    getBowler (ballStatsPhase i s X p) X =
      (if payloadIsLegal p then
        { getBowler i X with
          runs := (getBowler i X).runs + (p.runs + extrasTotal p.extras),
          wides := (getBowler i X).wides + p.extras.wide,
          noBalls := (getBowler i X).noBalls + p.extras.noBall,
          balls := (getBowler i X).balls + 1 }
      else
        { getBowler i X with
          runs := (getBowler i X).runs + (p.runs + extrasTotal p.extras),
          wides := (getBowler i X).wides + p.extras.wide,
          noBalls := (getBowler i X).noBalls + p.extras.noBall }) := by
  unfold ballStatsPhase
  repeat' (first | split | simp only [])
  all_goals try simp_all
  all_goals
    (repeat' (rw [bowlerOf_touch_self] <;> try exact fun b => rfl)
     try rfl)

theorem getBowler_completedSet (j : Innings) (X : String) :
    getBowler { j with completed := true } X = getBowler j X := rfl

theorem getBowler_ballsPush (j : Innings) (l : List Ball) (X : String) :
    getBowler { j with balls := l } X = getBowler j X := rfl

theorem getBatsman_completedSet (j : Innings) (q : String) :
    getBatsman { j with completed := true } q = getBatsman j q := rfl

theorem getBatsman_ballsPush (j : Innings) (l : List Ball) (q : String) :
    getBatsman { j with balls := l } q = getBatsman j q := rfl

theorem getBatsman_ballStatsPhase_striker (i : Innings) (s X : String)
    (p : BallPayload) :
    getBatsman (ballStatsPhase i s X p) s =
      (if payloadIsLegal p then
        { getBatsman i s with
          balls := (getBatsman i s).balls + 1,
          runs := (getBatsman i s).runs + p.runs,
          fours := (getBatsman i s).fours + (if p.runs = 4 then 1 else 0),
          sixes := (getBatsman i s).sixes + (if p.runs = 6 then 1 else 0) }
      else if payloadIsNoBall p && decide (0 < p.runs) then
        { getBatsman i s with
          runs := (getBatsman i s).runs + p.runs,
          fours := (getBatsman i s).fours + (if p.runs = 4 then 1 else 0),
          sixes := (getBatsman i s).sixes + (if p.runs = 6 then 1 else 0) }
      else getBatsman i s) := by
  unfold ballStatsPhase
  repeat' (first | split | simp only [])
  all_goals try simp_all
  all_goals
    (first
      | rfl
      | (rw [batsmanOf_touch_self] <;> first | rfl | exact fun b => rfl))

/-- Bowler-ledger image of one full `applyBallToInnings` application. -/
theorem getBowler_applyBall (inn : Innings) (s t X : String) (p : BallPayload) :
    getBowler (applyBallToInnings inn s t X p) X =
      (if p.isWicket &&
          !neutralDismissal (lowerString ((orNone p.wicketType).getD "")) then
        { (if payloadIsLegal p then
            { getBowler inn X with
              runs := (getBowler inn X).runs + (p.runs + extrasTotal p.extras),
              wides := (getBowler inn X).wides + p.extras.wide,
              noBalls := (getBowler inn X).noBalls + p.extras.noBall,
              balls := (getBowler inn X).balls + 1 }
          else
            { getBowler inn X with
              runs := (getBowler inn X).runs + (p.runs + extrasTotal p.extras),
              wides := (getBowler inn X).wides + p.extras.wide,
              noBalls := (getBowler inn X).noBalls + p.extras.noBall }) with
          wickets :=
            (if payloadIsLegal p then
              { getBowler inn X with
                runs := (getBowler inn X).runs + (p.runs + extrasTotal p.extras),
                wides := (getBowler inn X).wides + p.extras.wide,
                noBalls := (getBowler inn X).noBalls + p.extras.noBall,
                balls := (getBowler inn X).balls + 1 }
            else
              { getBowler inn X with
                runs := (getBowler inn X).runs + (p.runs + extrasTotal p.extras),
                wides := (getBowler inn X).wides + p.extras.wide,
                noBalls := (getBowler inn X).noBalls + p.extras.noBall }).wickets + 1 }
      else
        (if payloadIsLegal p then
          { getBowler inn X with
            runs := (getBowler inn X).runs + (p.runs + extrasTotal p.extras),
            wides := (getBowler inn X).wides + p.extras.wide,
            noBalls := (getBowler inn X).noBalls + p.extras.noBall,
            balls := (getBowler inn X).balls + 1 }
        else
          { getBowler inn X with
            runs := (getBowler inn X).runs + (p.runs + extrasTotal p.extras),
            wides := (getBowler inn X).wides + p.extras.wide,
            noBalls := (getBowler inn X).noBalls + p.extras.noBall })) := by
  unfold applyBallToInnings
  simp only []
  split
  all_goals split
  all_goals try rw [getBowler_completedSet]
  all_goals try rw [getBowler_swapStrike]
  all_goals rw [getBowler_wicketPhase_self]
  all_goals simp only [mkBallRecord_isWicket, mkBallRecord_wicketType]
  all_goals rw [getBowler_ballStatsPhase, getBowler_ballsPush]

/-- Striker-ledger image of one full `applyBallToInnings` application. -/
theorem getBatsman_applyBall_striker (inn : Innings) (s t X : String) (p : BallPayload) :
    (getBatsman (applyBallToInnings inn s t X p) s).runs =
      (getBatsman inn s).runs +
        (if payloadIsLegal p || (payloadIsNoBall p && decide (0 < p.runs)) then p.runs
         else 0) ∧
    (getBatsman (applyBallToInnings inn s t X p) s).balls =
      (getBatsman inn s).balls + (if payloadIsLegal p then 1 else 0) ∧
    (getBatsman (applyBallToInnings inn s t X p) s).fours =
      (getBatsman inn s).fours +
        (if (payloadIsLegal p || (payloadIsNoBall p && decide (0 < p.runs))) &&
            decide (p.runs = 4) then 1 else 0) ∧
    (getBatsman (applyBallToInnings inn s t X p) s).sixes =
      (getBatsman inn s).sixes +
        (if (payloadIsLegal p || (payloadIsNoBall p && decide (0 < p.runs))) &&
            decide (p.runs = 6) then 1 else 0) := by
  unfold applyBallToInnings
  simp only []
  refine ⟨?_, ?_, ?_, ?_⟩
  all_goals
    (split <;> split <;>
      (try rw [getBatsman_completedSet]
       try rw [getBatsman_swapStrike]
       (first
         | rw [(getBatsman_wicketPhase_fields _ _ _ _).1]
         | rw [(getBatsman_wicketPhase_fields _ _ _ _).2.1]
         | rw [(getBatsman_wicketPhase_fields _ _ _ _).2.2.1]
         | rw [(getBatsman_wicketPhase_fields _ _ _ _).2.2.2])
       rw [getBatsman_ballStatsPhase_striker, getBatsman_ballsPush]
       by_cases hleg : payloadIsLegal p = true
       · simp [hleg]
       · by_cases hnb : (payloadIsNoBall p && decide (0 < p.runs)) = true
         · simp [hleg, hnb]
         · simp [hleg, hnb]))

theorem batsmanOf_touch_out (l : List BatsmanStat) (n q : String)
    (f : BatsmanStat → BatsmanStat) (hf : ∀ b, (f b).name = b.name)
    (hio : ∀ b, (f b).isOut = b.isOut) (hd : ∀ b, (f b).dismissal = b.dismissal) :
    (batsmanOf (updateFirstBatsman (ensureBatsmanList l n) n f) q).isOut =
        (batsmanOf l q).isOut ∧
    (batsmanOf (updateFirstBatsman (ensureBatsmanList l n) n f) q).dismissal =
        (batsmanOf l q).dismissal := by
  by_cases hq : q = n
  · subst hq
    rw [batsmanOf_touch_self _ _ _ hf]
    exact ⟨hio _, hd _⟩
  · rw [batsmanOf_touch_ne _ _ _ _ hf hq]
    exact ⟨rfl, rfl⟩

theorem getBatsman_ballStatsPhase_out (i : Innings) (s X q : String) (p : BallPayload) :
    (getBatsman (ballStatsPhase i s X p) q).isOut = (getBatsman i q).isOut ∧
    (getBatsman (ballStatsPhase i s X p) q).dismissal = (getBatsman i q).dismissal := by
  unfold ballStatsPhase
  repeat' (first | split | simp only [])
  all_goals
    (first
      | exact ⟨rfl, rfl⟩
      | exact batsmanOf_touch_out _ _ _ _ (fun b => rfl) (fun b => rfl) (fun b => rfl))

theorem wicketPhase_noPlayer (i : Innings) (br : Ball) (X : String)
    (hw : br.isWicket = true) (hp : br.wicketPlayer = none) :
    (wicketPhase i br X).wickets = i.wickets + 1 ∧
    (wicketPhase i br X).fallOfWickets = i.fallOfWickets ∧
    (wicketPhase i br X).currentPartnership = i.currentPartnership ∧
    (wicketPhase i br X).batsmen = i.batsmen := by
  unfold wicketPhase
  rw [if_pos hw]
  simp only [hp]
  split <;> exact ⟨rfl, rfl, rfl, rfl⟩

theorem wicketPhase_nonWicket_partnership (i : Innings) (br : Ball) (X : String)
    (hw : br.isWicket = false) :
    (wicketPhase i br X).currentPartnership =
      (if (br.runs + br.extras.bye + br.extras.legBye) % 2 = 1 then
        { striker := i.currentPartnership.nonStriker,
          nonStriker := i.currentPartnership.striker,
          runs := i.currentPartnership.runs + br.totalRunsThisBall }
      else
        { i.currentPartnership with
          runs := i.currentPartnership.runs + br.totalRunsThisBall }) := by
  unfold wicketPhase
  rw [if_neg (by simp [hw])]
  simp only []
  split
  · rfl
  · rfl

/-- Net strike effect of a non-wicket legal delivery: the odd-run swap and the
end-of-over swap compose by exclusive-or. -/
theorem applyBall_nonWicket_partnership (inn : Innings) (s t X : String)
    (p : BallPayload) (hw : p.isWicket = false) (hleg : payloadIsLegal p = true)
    (hs : inn.currentPartnership.striker = some s)
    (hns : inn.currentPartnership.nonStriker = some t) :
    ((applyBallToInnings inn s t X p).currentPartnership.striker =
      if ((p.runs + p.extras.bye + p.extras.legBye) % 2 = 1 ↔
          (inn.legalDeliveries + 1) % 6 = 0) then some s else some t) ∧
    ((applyBallToInnings inn s t X p).currentPartnership.nonStriker =
      if ((p.runs + p.extras.bye + p.extras.legBye) % 2 = 1 ↔
          (inn.legalDeliveries + 1) % 6 = 0) then some t else some s) ∧
    (applyBallToInnings inn s t X p).currentPartnership.runs =
      inn.currentPartnership.runs + (p.runs + extrasTotal p.extras) := by
  unfold applyBallToInnings
  simp only []
  refine ⟨?_, ?_, ?_⟩
  all_goals
    (split <;> split <;>
      (by_cases hodd : (p.runs + p.extras.bye + p.extras.legBye) % 2 = 1 <;>
        simp_all [wicketPhase_nonWicket_partnership, ballStatsPhase_currentPartnership,
          ballStatsPhase_legalDeliveries, wicketPhase_legalDeliveries]))

/-- Effect of a wicket ball whose `wicketPlayer` is unset: the wicket is counted,
no fall-of-wicket is recorded, the partnership keeps its runs and only undergoes the
end-of-over swap. -/
theorem applyBall_wicketNoPlayer (inn : Innings) (s t X : String) (p : BallPayload)
    (hw : p.isWicket = true) (hp : orNone p.wicketPlayer = none) :
    (applyBallToInnings inn s t X p).wickets = inn.wickets + 1 ∧
    (applyBallToInnings inn s t X p).fallOfWickets = inn.fallOfWickets ∧
    (applyBallToInnings inn s t X p).currentPartnership.runs =
      inn.currentPartnership.runs ∧
    ((applyBallToInnings inn s t X p).currentPartnership.striker =
      if payloadIsLegal p = true ∧ (inn.legalDeliveries + 1) % 6 = 0 then
        inn.currentPartnership.nonStriker
      else inn.currentPartnership.striker) ∧
    ((applyBallToInnings inn s t X p).currentPartnership.nonStriker =
      if payloadIsLegal p = true ∧ (inn.legalDeliveries + 1) % 6 = 0 then
        inn.currentPartnership.striker
      else inn.currentPartnership.nonStriker) ∧
    (∀ q : String, (getBatsman (applyBallToInnings inn s t X p) q).isOut =
      (getBatsman inn q).isOut) := by
  have hwicket :
      ∀ i', (wicketPhase i' (mkBallRecord (inn.legalDeliveries / 6)
          (inn.legalDeliveries % 6 + 1) (payloadIsLegal p) s t X p) X).wickets =
          i'.wickets + 1 ∧
        (wicketPhase i' (mkBallRecord (inn.legalDeliveries / 6)
          (inn.legalDeliveries % 6 + 1) (payloadIsLegal p) s t X p) X).fallOfWickets =
          i'.fallOfWickets ∧
        (wicketPhase i' (mkBallRecord (inn.legalDeliveries / 6)
          (inn.legalDeliveries % 6 + 1) (payloadIsLegal p) s t X p) X).currentPartnership =
          i'.currentPartnership ∧
        (wicketPhase i' (mkBallRecord (inn.legalDeliveries / 6)
          (inn.legalDeliveries % 6 + 1) (payloadIsLegal p) s t X p) X).batsmen =
          i'.batsmen :=
    fun i' => wicketPhase_noPlayer i' _ X (by simp [hw]) (by simp [hp])
  unfold applyBallToInnings
  simp only []
  refine ⟨?_, ?_, ?_, ?_, ?_, ?_⟩
  · split <;> split <;>
      simp_all [ballStatsPhase_wickets]
  · split <;> split <;>
      simp_all [ballStatsPhase_fallOfWickets]
  · split <;> split <;>
      simp_all [ballStatsPhase_currentPartnership]
  · split <;> split <;>
      (try simp_all [ballStatsPhase_currentPartnership, ballStatsPhase_legalDeliveries,
         wicketPhase_legalDeliveries]
       try (split <;> simp_all)
       try (have hsw : payloadIsLegal p = true ∧
              (inn.legalDeliveries + if payloadIsLegal p = true then 1 else 0) % 6 = 0 := by
              assumption
            obtain ⟨hl, hm⟩ := hsw
            rw [if_pos hl] at hm
            rw [if_pos hm]))
  · split <;> split <;>
      (try simp_all [ballStatsPhase_currentPartnership, ballStatsPhase_legalDeliveries,
         wicketPhase_legalDeliveries]
       try (split <;> simp_all)
       try (have hsw : payloadIsLegal p = true ∧
              (inn.legalDeliveries + if payloadIsLegal p = true then 1 else 0) % 6 = 0 := by
              assumption
            obtain ⟨hl, hm⟩ := hsw
            rw [if_pos hl] at hm
            rw [if_pos hm]))
  · intro q
    split <;> split <;>
      (try rw [getBatsman_completedSet]
       try rw [getBatsman_swapStrike]
       rw [show ∀ j : Innings, (getBatsman j q).isOut =
         (batsmanOf j.batsmen q).isOut from fun j => rfl]
       rw [(hwicket _).2.2.2]
       rw [show ∀ j : Innings, (batsmanOf j.batsmen q).isOut =
         (getBatsman j q).isOut from fun j => rfl]
       rw [(getBatsman_ballStatsPhase_out _ _ _ _ _).1, getBatsman_ballsPush])

/-- C6: on a non-wicket legal delivery accepted by `addBall` with striker `s` and
non-striker `t`, the net change of ends is the exclusive-or of the odd-run swap and
the end-of-over swap: the striker stays `s` exactly when the oddness of
`runs + bye + legBye` agrees with the over-boundary condition (two swaps or none),
and the ends are exchanged exactly when one of the two conditions holds alone. -/
theorem C6_strike_rotation (m : CMatch) (p : BallPayload) (X s t : String)
    (hst : m.status = .inProgress) (hc : (curInnings m).completed = false)
    (hb : p.bowler = some X)
    (hcr : consecutiveOverReject (curInnings m) X (payloadIsLegal p) = false)
    (hs : (curInnings m).currentPartnership.striker = some s)
    (hns : (curInnings m).currentPartnership.nonStriker = some t)
    (hw : p.isWicket = false) (hleg : payloadIsLegal p = true) :
    (addBall (some m) true p).resp = .ok () ∧
    (inningsAt (persisted m (addBall (some m) true p))
        m.currentInningsIndex).currentPartnership.striker =
      (if ((p.runs + p.extras.bye + p.extras.legBye) % 2 = 1 ↔
          ((curInnings m).legalDeliveries + 1) % 6 = 0) then some s else some t) ∧
    (inningsAt (persisted m (addBall (some m) true p))
        m.currentInningsIndex).currentPartnership.nonStriker =
      (if ((p.runs + p.extras.bye + p.extras.legBye) % 2 = 1 ↔
          ((curInnings m).legalDeliveries + 1) % 6 = 0) then some t else some s) := by
  refine ⟨?_, ?_, ?_⟩
  · rw [addBall_success m p X s t hst hc hb hcr hs hns]
  · rw [postBall_innings m p X s t hst hc hb hcr hs hns]
    exact (applyBall_nonWicket_partnership (curInnings m) s t X p hw hleg hs hns).1
  · rw [postBall_innings m p X s t hst hc hb hcr hs hns]
    exact (applyBall_nonWicket_partnership (curInnings m) s t X p hw hleg hs hns).2.1

/-- Witness for C6: a single off the seventh legal ball (mid-over, so no boundary
swap) moves the striker's end: after over 0 the ends are T/S, and the odd single
returns them to S/T. -/
theorem C6_witness :
    (addBall (some afterOver0) true (plainBall "Y" 1)).resp = .ok () ∧
    (inningsAt (persisted afterOver0 (addBall (some afterOver0) true (plainBall "Y" 1)))
        afterOver0.currentInningsIndex).currentPartnership.striker = some "S" ∧
    (inningsAt (persisted afterOver0 (addBall (some afterOver0) true (plainBall "Y" 1)))
        afterOver0.currentInningsIndex).currentPartnership.nonStriker = some "T" := by
  have h := C6_strike_rotation afterOver0 (plainBall "Y" 1) "Y" "T" "S"
    rfl rfl rfl rfl rfl rfl rfl rfl
  refine ⟨h.1, ?_, ?_⟩
  · rw [h.2.1]
    decide
  · rw [h.2.2]
    decide

/-- C7: per-delivery ledger deltas of an accepted ball: the bowler concedes the
full ball total (bat runs plus all extras, byes and leg-byes included), the
wide/no-ball tallies grow by the respective extras, and the balls-bowled counter
moves only on a legal delivery; the striker is credited bat runs (and boundary
counts) on a legal delivery or on a no-ball carrying bat runs, faces a ball only
on a legal delivery, and never has byes or leg-byes added to his runs. -/
theorem C7_ledger_deltas (m : CMatch) (p : BallPayload) (X s t : String)
    (hst : m.status = .inProgress) (hc : (curInnings m).completed = false)
    (hb : p.bowler = some X)
    (hcr : consecutiveOverReject (curInnings m) X (payloadIsLegal p) = false)
    (hs : (curInnings m).currentPartnership.striker = some s)
    (hns : (curInnings m).currentPartnership.nonStriker = some t) :
    (addBall (some m) true p).resp = .ok () ∧
    (getBowler (inningsAt (persisted m (addBall (some m) true p))
        m.currentInningsIndex) X).runs =
      (getBowler (curInnings m) X).runs + (p.runs + extrasTotal p.extras) ∧
    (getBowler (inningsAt (persisted m (addBall (some m) true p))
        m.currentInningsIndex) X).wides =
      (getBowler (curInnings m) X).wides + p.extras.wide ∧
    (getBowler (inningsAt (persisted m (addBall (some m) true p))
        m.currentInningsIndex) X).noBalls =
      (getBowler (curInnings m) X).noBalls + p.extras.noBall ∧
    (getBowler (inningsAt (persisted m (addBall (some m) true p))
        m.currentInningsIndex) X).balls =
      (getBowler (curInnings m) X).balls + (if payloadIsLegal p then 1 else 0) ∧
    (getBatsman (inningsAt (persisted m (addBall (some m) true p))
        m.currentInningsIndex) s).runs =
      (getBatsman (curInnings m) s).runs +
        (if payloadIsLegal p || (payloadIsNoBall p && decide (0 < p.runs)) then p.runs
         else 0) ∧
    (getBatsman (inningsAt (persisted m (addBall (some m) true p))
        m.currentInningsIndex) s).balls =
      (getBatsman (curInnings m) s).balls + (if payloadIsLegal p then 1 else 0) ∧
    (getBatsman (inningsAt (persisted m (addBall (some m) true p))
        m.currentInningsIndex) s).fours =
      (getBatsman (curInnings m) s).fours +
        (if (payloadIsLegal p || (payloadIsNoBall p && decide (0 < p.runs))) &&
            decide (p.runs = 4) then 1 else 0) ∧
    (getBatsman (inningsAt (persisted m (addBall (some m) true p))
        m.currentInningsIndex) s).sixes =
      (getBatsman (curInnings m) s).sixes +
        (if (payloadIsLegal p || (payloadIsNoBall p && decide (0 < p.runs))) &&
            decide (p.runs = 6) then 1 else 0) := by
  have hpost := postBall_innings m p X s t hst hc hb hcr hs hns
  have hB := getBowler_applyBall (curInnings m) s t X p
  have hS := getBatsman_applyBall_striker (curInnings m) s t X p
  refine ⟨?_, ?_, ?_, ?_, ?_, ?_, ?_, ?_, ?_⟩
  · rw [addBall_success m p X s t hst hc hb hcr hs hns]
  · rw [hpost, hB]
    split <;> split <;> simp
  · rw [hpost, hB]
    split <;> split <;> simp
  · rw [hpost, hB]
    split <;> split <;> simp
  · rw [hpost, hB]
    split <;> split <;> simp_all
  · rw [hpost]
    exact hS.1
  · rw [hpost]
    exact hS.2.1
  · rw [hpost]
    exact hS.2.2.1
  · rw [hpost]
    exact hS.2.2.2

/-- A no-ball carrying two bat runs, bowled by Y. -/
def noBallTwo : BallPayload := { plainBall "Y" 2 with extras := ⟨0, 1, 0, 0, 0⟩ }

/-- Witness for C7: a two-run no-ball after over 0 — the fresh bowler Y concedes
3 (2 bat + 1 no-ball) with one no-ball and no ball bowled; the striker T is
credited the 2 runs without facing a ball. -/
theorem C7_witness :
    (addBall (some afterOver0) true noBallTwo).resp = .ok () ∧
    (getBowler (inningsAt (persisted afterOver0 (addBall (some afterOver0) true noBallTwo))
        afterOver0.currentInningsIndex) "Y").runs = 3 ∧
    (getBowler (inningsAt (persisted afterOver0 (addBall (some afterOver0) true noBallTwo))
        afterOver0.currentInningsIndex) "Y").noBalls = 1 ∧
    (getBowler (inningsAt (persisted afterOver0 (addBall (some afterOver0) true noBallTwo))
        afterOver0.currentInningsIndex) "Y").balls = 0 ∧
    (getBatsman (inningsAt (persisted afterOver0 (addBall (some afterOver0) true noBallTwo))
        afterOver0.currentInningsIndex) "T").runs = 2 ∧
    (getBatsman (inningsAt (persisted afterOver0 (addBall (some afterOver0) true noBallTwo))
        afterOver0.currentInningsIndex) "T").balls = 0 := by
  have h := C7_ledger_deltas afterOver0 noBallTwo "Y" "T" "S" rfl rfl rfl rfl rfl rfl
  refine ⟨h.1, ?_, ?_, ?_, ?_, ?_⟩
  · rw [h.2.1]
    decide
  · rw [h.2.2.2.1]
    decide
  · rw [h.2.2.2.2.1]
    decide
  · rw [h.2.2.2.2.2.1]
    decide
  · rw [h.2.2.2.2.2.2.1]
    decide

/-- Five legal deliveries into over 0 (bowled by X), ends still S/T. -/
def fiveBalls : CMatch :=
  runOps (EngineOp.start "S" "T" "X" :: List.replicate 5 (EngineOp.ball (plainBall "X" 0)))

/-- C10 counterexample: a legal sixth-ball wicket with `wicketPlayer` unset still
performs the end-of-over swap — the partnership's striker and nonStriker change
from S/T to T/S, contradicting the claim that both are left unchanged. -/
theorem C10_counterexample :
    (wicketBall "X" none none).isWicket = true ∧
    orNone (wicketBall "X" none none).wicketPlayer = none ∧
    (curInnings fiveBalls).currentPartnership.striker = some "S" ∧
    (curInnings fiveBalls).currentPartnership.nonStriker = some "T" ∧
    (addBall (some fiveBalls) true (wicketBall "X" none none)).resp = .ok () ∧
    (inningsAt (persisted fiveBalls (addBall (some fiveBalls) true (wicketBall "X" none none)))
        fiveBalls.currentInningsIndex).currentPartnership.striker = some "T" ∧
    (inningsAt (persisted fiveBalls (addBall (some fiveBalls) true (wicketBall "X" none none)))
        fiveBalls.currentInningsIndex).currentPartnership.nonStriker = some "S" :=
  ⟨rfl, rfl, rfl, rfl, rfl, rfl, rfl⟩

/-- C10 (amended): an accepted wicket ball with `wicketPlayer` unset still counts
the wicket and still credits the bowler for non-neutral dismissal kinds (including
a null kind); no fall-of-wicket is recorded, no batsman ledger entry is marked out,
and the partnership keeps its runs — but the striker and non-striker still undergo
the end-of-over swap on a legal over-completing delivery; they are unchanged only
away from the over boundary. -/
theorem C10_wicket_noPlayer_amended (m : CMatch) (p : BallPayload) (X s t : String)
    (hst : m.status = .inProgress) (hc : (curInnings m).completed = false)
    (hb : p.bowler = some X)
    (hcr : consecutiveOverReject (curInnings m) X (payloadIsLegal p) = false)
    (hs : (curInnings m).currentPartnership.striker = some s)
    (hns : (curInnings m).currentPartnership.nonStriker = some t)
    (hw : p.isWicket = true) (hp : orNone p.wicketPlayer = none) :
    (addBall (some m) true p).resp = .ok () ∧
    (inningsAt (persisted m (addBall (some m) true p))
        m.currentInningsIndex).wickets = (curInnings m).wickets + 1 ∧
    (inningsAt (persisted m (addBall (some m) true p))
        m.currentInningsIndex).fallOfWickets = (curInnings m).fallOfWickets ∧
    (inningsAt (persisted m (addBall (some m) true p))
        m.currentInningsIndex).currentPartnership.runs =
      (curInnings m).currentPartnership.runs ∧
    ((inningsAt (persisted m (addBall (some m) true p))
        m.currentInningsIndex).currentPartnership.striker =
      if payloadIsLegal p = true ∧ ((curInnings m).legalDeliveries + 1) % 6 = 0 then
        some t
      else some s) ∧
    ((inningsAt (persisted m (addBall (some m) true p))
        m.currentInningsIndex).currentPartnership.nonStriker =
      if payloadIsLegal p = true ∧ ((curInnings m).legalDeliveries + 1) % 6 = 0 then
        some s
      else some t) ∧
    (∀ q : String,
      (getBatsman (inningsAt (persisted m (addBall (some m) true p))
        m.currentInningsIndex) q).isOut = (getBatsman (curInnings m) q).isOut) ∧
    (getBowler (inningsAt (persisted m (addBall (some m) true p))
        m.currentInningsIndex) X).wickets =
      (getBowler (curInnings m) X).wickets +
        (if neutralDismissal (lowerString ((orNone p.wicketType).getD "")) then 0
         else 1) := by
  have hpost := postBall_innings m p X s t hst hc hb hcr hs hns
  have hWNP := applyBall_wicketNoPlayer (curInnings m) s t X p hw hp
  refine ⟨?_, ?_, ?_, ?_, ?_, ?_, ?_, ?_⟩
  · rw [addBall_success m p X s t hst hc hb hcr hs hns]
  · rw [hpost]
    exact hWNP.1
  · rw [hpost]
    exact hWNP.2.1
  · rw [hpost]
    exact hWNP.2.2.1
  · rw [hpost, hWNP.2.2.2.1, hs, hns]
  · rw [hpost, hWNP.2.2.2.2.1, hs, hns]
  · intro q
    rw [hpost]
    exact hWNP.2.2.2.2.2 q
  · rw [hpost, getBowler_applyBall, hw]
    by_cases hn : neutralDismissal (lowerString ((orNone p.wicketType).getD "")) = true
    · simp [hn]
      try split <;> simp
    · simp [hn]
      try split <;> simp

/-- Witness for C10: a run-out-kind wicket with no `wicketPlayer` on the seventh
legal ball — the wicket is counted, no fall-of-wicket appears, the ends stay put
(mid-over) and the neutral kind leaves the bowler uncredited. -/
theorem C10_witness :
    (addBall (some afterOver0) true (wicketBall "Y" (some "runout") none)).resp = .ok () ∧
    (inningsAt (persisted afterOver0
        (addBall (some afterOver0) true (wicketBall "Y" (some "runout") none)))
        afterOver0.currentInningsIndex).wickets = 1 ∧
    (inningsAt (persisted afterOver0
        (addBall (some afterOver0) true (wicketBall "Y" (some "runout") none)))
        afterOver0.currentInningsIndex).fallOfWickets = [] ∧
    (inningsAt (persisted afterOver0
        (addBall (some afterOver0) true (wicketBall "Y" (some "runout") none)))
        afterOver0.currentInningsIndex).currentPartnership.striker = some "T" ∧
    (inningsAt (persisted afterOver0
        (addBall (some afterOver0) true (wicketBall "Y" (some "runout") none)))
        afterOver0.currentInningsIndex).currentPartnership.nonStriker = some "S" ∧
    (getBowler (inningsAt (persisted afterOver0
        (addBall (some afterOver0) true (wicketBall "Y" (some "runout") none)))
        afterOver0.currentInningsIndex) "Y").wickets = 0 := by
  have h := C10_wicket_noPlayer_amended afterOver0 (wicketBall "Y" (some "runout") none)
    "Y" "T" "S" rfl rfl rfl rfl rfl rfl rfl rfl
  refine ⟨h.1, ?_, ?_, ?_, ?_, ?_⟩
  · rw [h.2.1]
    decide
  · rw [h.2.2.1]
    decide
  · rw [h.2.2.2.2.1]
    decide
  · rw [h.2.2.2.2.2.1]
    decide
  · rw [h.2.2.2.2.2.2.2]
    decide

/-! ### The consecutive-over guard (C1) -/

/-- Off the over boundary (`legalDeliveries % 6 ≠ 0`) the two floors of the outer
guard coincide, so the consecutive-over check of `addBall` never fires. -/
theorem consecutiveOverReject_midover (inn : Innings) (X : String) (b : Bool)
    (h6 : inn.legalDeliveries % 6 ≠ 0) :
    consecutiveOverReject inn X b = false := by
  unfold consecutiveOverReject
  simp only []
  have he : ((inn.legalDeliveries : Int).fdiv 6 ==
      ((inn.legalDeliveries : Int) - 1).fdiv 6) = true := by
    have hq : (inn.legalDeliveries : Int).fdiv 6 =
        ((inn.legalDeliveries : Int) - 1).fdiv 6 := by
      rw [Int.fdiv_eq_ediv _ (by norm_num), Int.fdiv_eq_ediv _ (by norm_num)]
      omega
    simp [hq]
  rw [he]
  simp

/-- `addBall` answers the consecutive-over rejection exactly when
`consecutiveOverReject` holds (under the earlier guards). -/
theorem addBall_consecutive_iff (m : CMatch) (p : BallPayload) (X s t : String)
    (hst : m.status = .inProgress) (hc : (curInnings m).completed = false)
    (hb : p.bowler = some X)
    (hs : (curInnings m).currentPartnership.striker = some s)
    (hns : (curInnings m).currentPartnership.nonStriker = some t) :
    ((addBall (some m) true p).resp =
        .error (.http 400 "Bowler cannot bowl consecutive overs") ↔
      consecutiveOverReject (curInnings m) X (payloadIsLegal p) = true) := by
  by_cases hcr : consecutiveOverReject (curInnings m) X (payloadIsLegal p) = true
  · unfold addBall
    simp [hst, hb, hc, hcr]
  · rw [addBall_success m p X s t hst hc hb (by simpa using hcr) hs hns]
    simp [hcr]

/-- Mid-over, `selectNextBowler` fails with the over-incomplete error (and thus
never with the consecutive-over rejection). -/
theorem selectNextBowler_midover (m : CMatch) (X : String) (hX : ¬(X = ""))
    (h0 : (curInnings m).legalDeliveries ≠ 0)
    (h6 : (curInnings m).legalDeliveries % 6 ≠ 0) :
    (selectNextBowler (some m) true X).resp =
      .error (.http 400 "Over not completed yet") := by
  simp [selectNextBowler, hX, h0, h6]

/-- With a nonempty log whose last legal ball is known, `bowledPreviousOver`
reduces to the first-bowler lookup of that ball's over. -/
theorem bowledPreviousOver_eq_lastOver (inn : Innings) (X : String) (lb : Ball)
    (hne : inn.balls ≠ []) (hlast : (legalBallsOf inn).getLast? = some lb) :
    bowledPreviousOver inn X =
      (match lastOverFirstBowler inn lb.over with
       | some ob => ob == X
       | none => false) := by
  unfold bowledPreviousOver
  have hie : inn.balls.isEmpty = false := by
    cases h : inn.balls with
    | nil => exact absurd h hne
    | cons a as => rfl
  simp only [hie, Bool.false_eq_true, if_false, hlast]
  cases lastOverFirstBowler inn lb.over <;> rfl

/-- At an over boundary of a consistent log (the last legal ball belongs to the
just-completed over), the consecutive-over rejection of `addBall` is exactly the
first-bowler comparison on that over. -/
theorem consecutiveOverReject_boundary (inn : Innings) (X : String) (lb : Ball)
    (h0 : inn.legalDeliveries ≠ 0) (h6 : inn.legalDeliveries % 6 = 0)
    (hne : inn.balls ≠ []) (hlast : (legalBallsOf inn).getLast? = some lb)
    (hover : lb.over = inn.legalDeliveries / 6 - 1) :
    consecutiveOverReject inn X true =
      (match lastOverFirstBowler inn (inn.legalDeliveries / 6 - 1) with
       | some ob => ob == X
       | none => false) := by
  unfold consecutiveOverReject
  simp only []
  have hfd : ((inn.legalDeliveries : Int).fdiv 6 ==
      ((inn.legalDeliveries : Int) - 1).fdiv 6) = false := by
    have hq : (inn.legalDeliveries : Int).fdiv 6 ≠
        ((inn.legalDeliveries : Int) - 1).fdiv 6 := by
      rw [Int.fdiv_eq_ediv _ (by norm_num), Int.fdiv_eq_ediv _ (by norm_num)]
      omega
    simp [hq]
  rw [hfd, bowledPreviousOver_eq_lastOver inn X lb hne hlast, hover]
  have hq6 : ¬(inn.legalDeliveries / 6 = 0) := by omega
  cases hm : lastOverFirstBowler inn (inn.legalDeliveries / 6 - 1) with
  | none => simp [hm, hq6]
  | some ob => cases hob : ob == X <;> simp [hm, hq6, hob]

/-- At an over boundary, `selectNextBowler` reduces to the same first-bowler
comparison on the last completed over. -/
theorem selectNextBowler_boundary (m : CMatch) (X : String) (hX : ¬(X = ""))
    (h0 : (curInnings m).legalDeliveries ≠ 0)
    (h6 : (curInnings m).legalDeliveries % 6 = 0) :
    (selectNextBowler (some m) true X).resp =
      (match lastOverFirstBowler (curInnings m)
          ((curInnings m).legalDeliveries / 6 - 1) with
       | some ob =>
           if ob == X then
             Except.error (ApiError.http 400 "Bowler cannot bowl consecutive overs")
           else Except.ok ()
       | none => Except.ok ()) := by
  have hmid : ¬((curInnings m).legalDeliveries ≠ 0 ∧
      (curInnings m).legalDeliveries % 6 ≠ 0) := by
    simp [h6]
  have hfd : ((((curInnings m).legalDeliveries : Int)) - 1).fdiv 6 =
      ((((curInnings m).legalDeliveries / 6 - 1 : Nat)) : Int) := by
    rw [Int.fdiv_eq_ediv _ (by norm_num)]
    omega
  have hfil : ((curInnings m).balls.filter
      (fun b => ((b.over : Int) ==
          (((curInnings m).legalDeliveries : Int) - 1).fdiv 6) &&
        decide (0 < b.ballInOver))) =
      ((curInnings m).balls.filter
      (fun b => (b.over == (curInnings m).legalDeliveries / 6 - 1) &&
        decide (0 < b.ballInOver))) :=
    List.filter_congr (fun b _ => by
      rw [hfd]
      congr 1
      rw [Bool.eq_iff_iff]
      simp only [beq_iff_eq]
      exact ⟨fun h2 => by exact_mod_cast h2, fun h2 => by exact_mod_cast h2⟩)
  unfold selectNextBowler
  rw [if_neg hX]
  simp only []
  rw [if_neg hmid]
  rw [hfil]
  unfold lastOverFirstBowler
  cases hh : ((curInnings m).balls.filter
      (fun b => (b.over == (curInnings m).legalDeliveries / 6 - 1) &&
        decide (0 < b.ballInOver))).head? with
  | none => simp
  | some prev => cases hob : prev.bowler == X <;> simp [hob]

/-- C1 (amended): the consecutive-over rule only guards the first legal delivery
of a new over.  (1) Mid-over (`legalDeliveries % 6 ≠ 0`) the rejection never
fires, so a later legal ball of over K+1 by the previous bowler is accepted;
(2) `addBall` answers the rejection exactly when `consecutiveOverReject` holds;
(3) mid-over, `selectNextBowler` cannot predict anything — it fails with the
over-incomplete error; (4) at an over boundary of a consistent log the two
handlers agree: `addBall` rejects the bowler X exactly when `selectNextBowler`
does. -/
theorem C1_consecutive_over_amended :
    (∀ (inn : Innings) (X : String) (b : Bool),
      inn.legalDeliveries % 6 ≠ 0 → consecutiveOverReject inn X b = false) ∧
    (∀ (m : CMatch) (p : BallPayload) (X s t : String),
      m.status = .inProgress → (curInnings m).completed = false →
      p.bowler = some X →
      (curInnings m).currentPartnership.striker = some s →
      (curInnings m).currentPartnership.nonStriker = some t →
      ((addBall (some m) true p).resp =
          .error (.http 400 "Bowler cannot bowl consecutive overs") ↔
        consecutiveOverReject (curInnings m) X (payloadIsLegal p) = true)) ∧
    (∀ (m : CMatch) (X : String), ¬(X = "") →
      (curInnings m).legalDeliveries ≠ 0 →
      (curInnings m).legalDeliveries % 6 ≠ 0 →
      (selectNextBowler (some m) true X).resp =
        .error (.http 400 "Over not completed yet")) ∧
    (∀ (m : CMatch) (p : BallPayload) (X s t : String) (lb : Ball),
      m.status = .inProgress → (curInnings m).completed = false →
      p.bowler = some X → payloadIsLegal p = true →
      (curInnings m).currentPartnership.striker = some s →
      (curInnings m).currentPartnership.nonStriker = some t →
      ¬(X = "") →
      (curInnings m).legalDeliveries ≠ 0 →
      (curInnings m).legalDeliveries % 6 = 0 →
      (curInnings m).balls ≠ [] →
      (legalBallsOf (curInnings m)).getLast? = some lb →
      lb.over = (curInnings m).legalDeliveries / 6 - 1 →
      ((addBall (some m) true p).resp =
          .error (.http 400 "Bowler cannot bowl consecutive overs") ↔
        (selectNextBowler (some m) true X).resp =
          .error (.http 400 "Bowler cannot bowl consecutive overs"))) := by
  refine ⟨?_, ?_, ?_, ?_⟩
  · intro inn X b h6
    exact consecutiveOverReject_midover inn X b h6
  · intro m p X s t hst hc hb hs hns
    exact addBall_consecutive_iff m p X s t hst hc hb hs hns
  · intro m X hX h0 h6
    exact selectNextBowler_midover m X hX h0 h6
  · intro m p X s t lb hst hc hb hleg hs hns hX h0 h6 hne hlast hover
    rw [addBall_consecutive_iff m p X s t hst hc hb hs hns, hleg,
      consecutiveOverReject_boundary (curInnings m) X lb h0 h6 hne hlast hover,
      selectNextBowler_boundary m X hX h0 h6]
    cases hm : lastOverFirstBowler (curInnings m)
        ((curInnings m).legalDeliveries / 6 - 1) with
    | none => simp
    | some ob => cases hob : ob == X <;> simp [hob]

/-- C1 counterexample: X bowled the last legal ball of over 0, yet the second
legal ball of over 1 bowled by X is accepted and saved by `addBall` — the claim
demands rejection for every legal ball of over 1; mid-over `selectNextBowler`
cannot even be consulted. -/
theorem C1_counterexample :
    ((curInnings midOver1).balls.filter
        (fun b => b.over == 0 && decide (0 < b.ballInOver))).getLast?.map
        (fun b => b.bowler) = some "X" ∧
    (curInnings midOver1).legalDeliveries = 7 ∧
    (addBall (some midOver1) true (plainBall "X" 0)).resp = .ok () ∧
    (addBall (some midOver1) true (plainBall "X" 0)).saved = true ∧
    (selectNextBowler (some midOver1) true "X").resp =
      .error (.http 400 "Over not completed yet") :=
  ⟨rfl, rfl, rfl, rfl, rfl⟩

/-- The last legal ball of over 0 in `afterOver0`. -/
def lastBallOver0 : Ball :=
  { over := 0, ballInOver := 6, striker := "S", nonStriker := "T", bowler := "X",
    runs := 0, extras := ⟨0, 0, 0, 0, 0⟩, totalRunsThisBall := 0, isWicket := false,
    wicketType := none, wicketPlayer := none, wicketBy := none, commentary := "" }

/-- Witness for C1: mid-over the rejection is off (`midOver1`, bowler X); at the
over boundary (`afterOver0`) the two handlers agree on rejecting X; mid-over
`selectNextBowler` answers the over-incomplete error. -/
theorem C1_witness :
    consecutiveOverReject (curInnings midOver1) "X" true = false ∧
    ((addBall (some afterOver0) true (plainBall "X" 0)).resp =
        .error (.http 400 "Bowler cannot bowl consecutive overs") ↔
      (selectNextBowler (some afterOver0) true "X").resp =
        .error (.http 400 "Bowler cannot bowl consecutive overs")) ∧
    (selectNextBowler (some midOver1) true "Y").resp =
      .error (.http 400 "Over not completed yet") := by
  refine ⟨?_, ?_, ?_⟩
  · exact C1_consecutive_over_amended.1 (curInnings midOver1) "X" true (by decide)
  · exact C1_consecutive_over_amended.2.2.2 afterOver0 (plainBall "X" 0) "X" "T" "S"
      lastBallOver0 rfl rfl rfl rfl rfl rfl (by decide) (by decide) (by decide)
      (by decide) (by decide) (by decide)
  · exact C1_consecutive_over_amended.2.2.1 midOver1 "Y" (by decide) (by decide)
      (by decide)

end Cricket
